import Mathlib

/-!
# Boost.Log `ipc::object_name` (Windows): names of shared kernel objects

A shallow embedding of `src/windows/object_name.cpp`: the lazily created private
namespace of the `user` scope (`init_user_namespace`), the resolution of a scope to
its name prefix (`get_scope_prefix`) and the two constructors of `object_name`.

Conventions of the embedding.

* A `HANDLE`, a `PSID` and a `DWORD` are natural numbers; `NULL` is `0`.
* A `std::string` is a `String`; a wide or narrow character array is a `List Char`.
  A `const char*` / `wchar_t*` argument is the list of the characters found from the
  pointer on, read up to the first NUL (`c_str`).
* The operating system is an oracle: `OSAnswers` holds, for one call of a function of the
  program, what each Win32 function answers. Every Win32 call made is appended to a log,
  so that "no OS call is made" is a statement about the log.
* Exceptions are the `Except.error` side of a result, next to the resulting process state.
* Threads are interleaved at the two accesses to the atomic `g_user_private_namespace`
  (the acquire load and the compare-exchange); see `System`.
-/

namespace BoostLog

/-! ## Data model -/

abbrev HANDLE := Nat
abbrev PSID := Nat
abbrev DWORD := Nat

/-- The null handle / null pointer. -/
def NULL : Nat := 0

/-- Modelled from the spec: the enumeration `object_name::scope` is declared in the header
`boost/log/utility/ipc/object_name.hpp`, which is not among the sources. The spec lists the
enumerators Global, ProcessGroup, Session and User and speaks of unknown / out-of-range
values; `unrecognised raw` stands for a value of the underlying integer type that is none
of the four enumerators. -/
inductive scope where
  | global
  | user
  | session
  | process_group
  | unrecognised (raw : Nat)
  deriving DecidableEq, Repr

/-- The Win32 calls the program makes, with the handle arguments they are given. -/
inductive OsCall where
  | GetCurrentProcess
  | OpenProcessToken
  | GetTokenInformation (token : HANDLE)
  | CreateBoundaryDescriptorW
  | AddSIDToBoundaryDescriptor (boundary : HANDLE) (sid : PSID)
  | CreatePrivateNamespaceW (boundary : HANDLE)
  | OpenPrivateNamespace (boundary : HANDLE)
  | ClosePrivateNamespace (h : HANDLE)
  | DeleteBoundaryDescriptor (boundary : HANDLE)
  | CloseHandle (h : HANDLE)
  | GetUserNameEx
  | GetLastError
  deriving DecidableEq, Repr

/-- What the operating system answers during one call of `init_user_namespace` or
`get_scope_prefix`: the returned `BOOL` (as a `Bool`) or handle, and the value left in the
out-parameter where there is one. -/
structure OSAnswers where
  /-- `OpenProcessToken(..., h_process_token.get_ptr())`: result and the token handle. -/
  OpenProcessToken : Bool × HANDLE
  /-- `GetTokenInformation(..., &token_user, ...)`: result and `token_user.User.Sid`. -/
  GetTokenInformation : Bool × PSID
  /-- `CreateBoundaryDescriptorW(L"User", 0)`: the descriptor, `NULL` on failure. -/
  CreateBoundaryDescriptorW : HANDLE
  /-- `AddSIDToBoundaryDescriptor(h_boundary.get_ptr(), sid)`: result and the descriptor
  handle as the call leaves it behind the pointer. -/
  AddSIDToBoundaryDescriptor : Bool × HANDLE
  /-- `CreatePrivateNamespaceW(NULL, boundary, L"User")`: the handle, `NULL` on failure. -/
  CreatePrivateNamespaceW : HANDLE
  /-- `OpenPrivateNamespace(boundary, L"User")`: the handle, `NULL` on failure. -/
  OpenPrivateNamespace : HANDLE
  /-- `GetUserNameEx(NameSamCompatible, buf, &len)`: `none` when the call fails, else the
  account name written to `buf` (followed by a NUL), whose length is stored in `len`. -/
  GetUserNameEx : Option (List Char)
  /-- `GetLastError()` after a failed `GetUserNameEx`. -/
  GetLastError : DWORD
  deriving DecidableEq, Repr

/-- The part of the process the program reads and writes: the atomic global
`g_user_private_namespace` and the log of the Win32 calls made so far, oldest first. -/
structure Proc where
  g_user_private_namespace : HANDLE
  calls : List OsCall
  deriving DecidableEq, Repr

/-- Appends Win32 calls to the log. -/
def Proc.log (st : Proc) (cs : List OsCall) : Proc :=
  { st with calls := st.calls ++ cs }

/-- The exception `boost::log::system_error` as thrown by `BOOST_LOG_THROW_DESCR_PARAMS`:
the description and the error code it is given. -/
structure system_error where
  descr : String
  code : DWORD
  deriving DecidableEq, Repr

/-! ## `auto_boundary_descriptor` and the token guard -/

/-- Destructor `~auto_boundary_descriptor`: `if (m_handle) DeleteBoundaryDescriptor(m_handle)`. -/
def auto_boundary_descriptor_dtor (m_handle : HANDLE) : List OsCall :=
  if m_handle ≠ NULL then [OsCall.DeleteBoundaryDescriptor m_handle] else []

/-- Modelled from the spec: `auto_handle` is declared in `windows/auto_handle.hpp`, which is
not among the sources; the spec describes it as the RAII guard that closes an OS handle on
every exit path. Its destructor closes the handle it holds, if it holds one. -/
def auto_handle_dtor (m_handle : HANDLE) : List OsCall :=
  if m_handle ≠ NULL then [OsCall.CloseHandle m_handle] else []

/-! ## `init_user_namespace` -/

/-- Where `init_user_namespace` stands after its first part: it has returned `r` with its
local `h` as given, or it holds a namespace handle `h` (non-null) and is about to publish it
with the compare-exchange; `boundary` and `token` are the handles its two guards hold at
that point. -/
inductive InitPoint where
  | returned (h : HANDLE) (r : Bool)
  | publishing (h boundary token : HANDLE)
  deriving DecidableEq, Repr

/-- First part of `init_user_namespace` (lines 83-109): the acquire load of
`g_user_private_namespace` and, when it reads `NULL`, the Win32 calls that obtain a
namespace handle. Every `return false` runs the destructors of the guards in scope, the
boundary descriptor first. When `h` is still `NULL` after create and open, the body falls
through to `return !!h`. -/
def init_acquire (os : OSAnswers) (st : Proc) : Proc × InitPoint :=
  let h := st.g_user_private_namespace
  if h ≠ NULL then
    (st, InitPoint.returned h (decide (h ≠ NULL)))
  else
    let token := os.OpenProcessToken.2
    let st1 := st.log [OsCall.GetCurrentProcess, OsCall.OpenProcessToken]
    if os.OpenProcessToken.1 = false then
      (st1.log (auto_handle_dtor token), InitPoint.returned h false)
    else
      let sid := os.GetTokenInformation.2
      let st2 := st1.log [OsCall.GetTokenInformation token]
      if os.GetTokenInformation.1 = false ∨ sid = NULL then
        (st2.log (auto_handle_dtor token), InitPoint.returned h false)
      else
        let b0 := os.CreateBoundaryDescriptorW
        let st3 := st2.log [OsCall.CreateBoundaryDescriptorW]
        if b0 = NULL then
          (st3.log (auto_boundary_descriptor_dtor b0 ++ auto_handle_dtor token),
            InitPoint.returned h false)
        else
          let b1 := os.AddSIDToBoundaryDescriptor.2
          let st4 := st3.log [OsCall.AddSIDToBoundaryDescriptor b0 sid]
          if os.AddSIDToBoundaryDescriptor.1 = false then
            (st4.log (auto_boundary_descriptor_dtor b1 ++ auto_handle_dtor token),
              InitPoint.returned h false)
          else
            let h1 := os.CreatePrivateNamespaceW
            let st5 := st4.log [OsCall.CreatePrivateNamespaceW b1]
            let h2 := if h1 = NULL then os.OpenPrivateNamespace else h1
            let st6 := if h1 = NULL then st5.log [OsCall.OpenPrivateNamespace b1] else st5
            if h2 ≠ NULL then
              (st6, InitPoint.publishing h2 b1 token)
            else
              (st6.log (auto_boundary_descriptor_dtor b1 ++ auto_handle_dtor token),
                InitPoint.returned h2 (decide (h2 ≠ NULL)))

/-- Second part of `init_user_namespace` (lines 111-120):
`compare_exchange_strong(expected = NULL, h)` on `g_user_private_namespace`; when it fails,
`ClosePrivateNamespace(h)` and `h = expected`, the value the exchange found. Then the block
is left (both guards are destroyed) and `!!h` is returned. The result holds the final value
of the local `h` next to the returned flag. -/
def init_publish (h boundary token : HANDLE) (st : Proc) : Proc × HANDLE × Bool :=
  let expected := NULL
  if st.g_user_private_namespace = expected then
    let st1 : Proc := { st with g_user_private_namespace := h }
    (st1.log (auto_boundary_descriptor_dtor boundary ++ auto_handle_dtor token),
      h, decide (h ≠ NULL))
  else
    let expected := st.g_user_private_namespace
    let st1 := st.log [OsCall.ClosePrivateNamespace h]
    (st1.log (auto_boundary_descriptor_dtor boundary ++ auto_handle_dtor token),
      expected, decide (expected ≠ NULL))

/-- The function `init_user_namespace` run without another thread between its load and its
compare-exchange: "Attempts to create or open the private namespace". -/
def init_user_namespace (os : OSAnswers) (st : Proc) : Proc × Bool :=
  match init_acquire os st with
  | (st1, InitPoint.returned _ r) => (st1, r)
  | (st1, InitPoint.publishing h boundary token) =>
    let r := init_publish h boundary token st1
    (r.1, r.2.2)

/-! ## `get_scope_prefix` -/

/-- The algorithm `std::replace(first, last, old_value, new_value)` on the range made of the
first `len` elements of `buf`: each element equal to `old_value` becomes `new_value`. -/
def std_replace : List Char → Nat → Char → Char → List Char
  | [], _, _, _ => []
  | c :: rest, 0, _, _ => c :: rest
  | c :: rest, len + 1, old_value, new_value =>
    (if c = old_value then new_value else c) :: std_replace rest len old_value new_value

/-- The characters of a NUL-terminated string: those found at the pointer before the first
NUL (`strlen` / `wcslen` many). -/
def c_str (mem : List Char) : List Char :=
  mem.takeWhile (fun c => c != '\x00')

/-- Modelled from the spec: `utf16_to_utf8` is defined in a header that is not among the
sources; the spec treats the conversion "between OS-native wide strings and a portable
encoding" as an external collaborator that changes the encoding and not the text. Texts are
sequences of Unicode characters here, so the conversion returns the characters of the
NUL-terminated wide string it is given. -/
def utf16_to_utf8 (str : List Char) : String :=
  String.mk (c_str str)

/-- The `else` branch of the `user` case (lines 155-165): the account name is queried into
`buf`; a failed query throws `system_error` with the code of `GetLastError()`; otherwise the
backslashes among the `len` characters written are replaced by dots and the converted
buffer is appended to the literal. -/
def user_fallback (os : OSAnswers) (st : Proc) : Proc × Except system_error String :=
  let st1 := st.log [OsCall.GetUserNameEx]
  match os.GetUserNameEx with
  | none =>
    let err := os.GetLastError
    (st1.log [OsCall.GetLastError],
      Except.error ⟨"Failed to obtain the current user name", err⟩)
  | some name =>
    let buf := name ++ ['\x00']
    let len := name.length
    let buf := std_replace buf len '\\' '.'
    (st1, Except.ok ("Local\\boost.log.user." ++ utf16_to_utf8 buf))

/-- The `user` case once `init_user_namespace` has returned `available` (lines 148-166):
the literal of the private namespace, or the fallback. -/
def user_scope_case (os : OSAnswers) (available : Bool) (st : Proc) :
    Proc × Except system_error String :=
  if available then (st, Except.ok "User\\boost.log.user") else user_fallback os st

/-- The function `get_scope_prefix`: "Returns a prefix string for a shared resource according
to the scope". `vista` is the compile-time condition
`BOOST_USE_WINAPI_VERSION >= BOOST_WINAPI_VERSION_VISTA`, under which
`init_user_namespace` exists and is tried first; without it the `user` case is the fallback
block alone. After the `switch`, `push_back('.')` is applied, which an exception skips. The
result is the process state after the call and the returned string or the exception. -/
def get_scope_prefix (vista : Bool) (os : OSAnswers) (st : Proc) (ns : scope) :
    Proc × Except system_error String :=
  let r : Proc × Except system_error String :=
    match ns with
    | scope.process_group => (st, Except.ok "Local\\boost.log.process_group")
    | scope.session => (st, Except.ok "Local\\boost.log.session")
    | scope.user =>
      if vista then
        let i := init_user_namespace os st
        user_scope_case os i.2 i.1
      else
        user_fallback os st
    | _ => (st, Except.ok "Global\\boost.log.global")
  (r.1, r.2.map (fun s => s.push '.'))

/-! ## `object_name` -/

/-- The class `object_name`, of which only the member `m_name` is used here. -/
structure object_name where
  m_name : String
  deriving DecidableEq, Repr

/-- Constructor `object_name(scope ns, const char* str)`:
`m_name(get_scope_prefix(ns) + str)`, where `str` points to a NUL-terminated string. -/
def object_name.of_c_str (vista : Bool) (os : OSAnswers) (st : Proc) (ns : scope)
    (str : List Char) : Proc × Except system_error object_name :=
  let r := get_scope_prefix vista os st ns
  (r.1, r.2.map (fun s => object_name.mk (s ++ String.mk (c_str str))))

/-- Constructor `object_name(scope ns, std::string const& str)`:
`m_name(get_scope_prefix(ns) + str)`. -/
def object_name.of_string (vista : Bool) (os : OSAnswers) (st : Proc) (ns : scope)
    (str : String) : Proc × Except system_error object_name :=
  let r := get_scope_prefix vista os st ns
  (r.1, r.2.map (fun s => object_name.mk (s ++ str)))

/-! ## Threads

`g_user_private_namespace` is a single atomic object: its loads and compare-exchanges are
totally ordered, whatever their memory-order arguments. A thread resolving the `user` scope
touches it twice, so its resolution is cut in two steps that other threads may separate:
`init_acquire` (the load and the Win32 calls) and `init_publish` (the compare-exchange and
what follows it up to the return of `get_scope_prefix`). -/

/-- Where a thread stands: outside a resolution, or inside `init_user_namespace` between the
load and the compare-exchange, holding the handle `h` it obtained. -/
inductive Pc where
  | idle
  | publishing (os : OSAnswers) (h boundary token : HANDLE)
  deriving DecidableEq, Repr

/-- What one completed `get_scope_prefix(user)` of a thread gave: the last value of the
local `h` of `init_user_namespace`, the flag it returned, and the string returned or the
exception thrown by `get_scope_prefix`. -/
structure Outcome where
  h : HANDLE
  available : Bool
  result : Except system_error String

/-- A thread: its position, the Win32 calls it has made and the outcomes of the resolutions
it has completed, oldest first. -/
structure Thread where
  pc : Pc
  calls : List OsCall
  outcomes : List Outcome

/-- A process: the shared atomic handle and its threads. -/
structure System where
  g_user_private_namespace : HANDLE
  threads : List Thread

/-- The end of a `get_scope_prefix(user)` (Vista configuration) of thread `t`, from the
return of `init_user_namespace` with local `h` and flag `available` in state `st`. -/
def Thread.complete (t : Thread) (os : OSAnswers) (h : HANDLE) (available : Bool)
    (st : Proc) : HANDLE × Thread :=
  let r := user_scope_case os available st
  (r.1.g_user_private_namespace,
    { pc := Pc.idle, calls := r.1.calls,
      outcomes := t.outcomes ++ [Outcome.mk h available (r.2.map (fun s => s.push '.'))] })

/-- One step of thread `t` when the shared handle is `g`. An idle thread enters
`get_scope_prefix(user)` with the OS answers `os` and runs `init_acquire`; a thread that
holds a handle to publish runs `init_publish` and completes its resolution (with the OS
answers it entered with). The result is the shared handle after the step and the thread. -/
def Thread.step (os : OSAnswers) (g : HANDLE) (t : Thread) : HANDLE × Thread :=
  match t.pc with
  | Pc.idle =>
    match init_acquire os (Proc.mk g t.calls) with
    | (st1, InitPoint.returned h r) => t.complete os h r st1
    | (st1, InitPoint.publishing h boundary token) =>
      (st1.g_user_private_namespace,
        { t with pc := Pc.publishing os h boundary token, calls := st1.calls })
  | Pc.publishing os0 h boundary token =>
    let r := init_publish h boundary token (Proc.mk g t.calls)
    t.complete os0 r.2.1 r.2.2 r.1

/-- A thread that is left alone from the start of a resolution to its end: one step, and a
second one if the first stopped before the compare-exchange. -/
def Thread.run_alone (os : OSAnswers) (g : HANDLE) (t : Thread) : HANDLE × Thread :=
  let r := t.step os g
  match r.2.pc with
  | Pc.idle => r
  | Pc.publishing _ _ _ _ => r.2.step os r.1

/-- One step of the process: the scheduler picks thread `ev.1`, which steps; `ev.2` is what
the OS answers if the step enters a new resolution. An index without a thread does nothing. -/
def System.step (s : System) (ev : Nat × OSAnswers) : System :=
  match s.threads[ev.1]? with
  | none => s
  | some t =>
    let r := t.step ev.2 s.g_user_private_namespace
    { g_user_private_namespace := r.1, threads := s.threads.set ev.1 r.2 }

/-- An execution: the steps of a schedule, in order. -/
def System.run (s : System) (evs : List (Nat × OSAnswers)) : System :=
  evs.foldl System.step s

/-- The successive values of the shared handle along an execution, the first one included. -/
def System.handle_history (s : System) : List (Nat × OSAnswers) → List HANDLE
  | [] => [s.g_user_private_namespace]
  | ev :: evs => s.g_user_private_namespace :: (s.step ev).handle_history evs

/-- The number of places in a history where the value differs from the one before. -/
def count_changes : List HANDLE → Nat
  | a :: b :: rest => (if a = b then 0 else 1) + count_changes (b :: rest)
  | _ => 0

/-! ## Successive resolutions -/

/-- Successive calls `get_scope_prefix(user)` made one after the other in one process (Vista
configuration), one for each element of `oss`, which holds what the OS answers during that
call: the final state and the results in order. -/
def resolve_user_each : List OSAnswers → Proc → Proc × List (Except system_error String)
  | [], st => (st, [])
  | os :: rest, st =>
    let r := get_scope_prefix true os st scope.user
    let q := resolve_user_each rest r.1
    (q.1, r.2 :: q.2)

/-! ## Example inputs -/

/-- OS answers under which the private namespace is created: every call succeeds. -/
def os_created : OSAnswers :=
  { OpenProcessToken := (true, 5), GetTokenInformation := (true, 9),
    CreateBoundaryDescriptorW := 7, AddSIDToBoundaryDescriptor := (true, 7),
    CreatePrivateNamespaceW := 11, OpenPrivateNamespace := 0,
    GetUserNameEx := some "DOMAIN\\alice".data, GetLastError := 0 }

/-- OS answers under which the private namespace is unavailable (the token query fails) and
the account name is `DOMAIN\alice`. -/
def os_denied : OSAnswers :=
  { OpenProcessToken := (true, 5), GetTokenInformation := (false, 0),
    CreateBoundaryDescriptorW := 7, AddSIDToBoundaryDescriptor := (true, 7),
    CreatePrivateNamespaceW := 11, OpenPrivateNamespace := 0,
    GetUserNameEx := some "DOMAIN\\alice".data, GetLastError := 0 }

/-- OS answers under which the private namespace is unavailable and the account-name query
fails with error code 1314. -/
def os_failing : OSAnswers :=
  { OpenProcessToken := (false, 0), GetTokenInformation := (false, 0),
    CreateBoundaryDescriptorW := 0, AddSIDToBoundaryDescriptor := (false, 0),
    CreatePrivateNamespaceW := 0, OpenPrivateNamespace := 0,
    GetUserNameEx := none, GetLastError := 1314 }

/-- OS answers under which creating the private namespace fails (it exists already) and
opening it gives the handle 12. -/
def os_opened : OSAnswers :=
  { OpenProcessToken := (true, 6), GetTokenInformation := (true, 9),
    CreateBoundaryDescriptorW := 8, AddSIDToBoundaryDescriptor := (true, 8),
    CreatePrivateNamespaceW := 0, OpenPrivateNamespace := 12,
    GetUserNameEx := some "DOMAIN\\alice".data, GetLastError := 0 }

/-- OS answers under which the private namespace is created with the handle 13. -/
def os_created_13 : OSAnswers :=
  { OpenProcessToken := (true, 4), GetTokenInformation := (true, 9),
    CreateBoundaryDescriptorW := 10, AddSIDToBoundaryDescriptor := (true, 10),
    CreatePrivateNamespaceW := 13, OpenPrivateNamespace := 0,
    GetUserNameEx := some "DOMAIN\\alice".data, GetLastError := 0 }

/-- OS answers under which the private namespace is unavailable (the process token cannot
be opened) and the account name is `a`. -/
def os_account (a : List Char) : OSAnswers :=
  { OpenProcessToken := (false, 0), GetTokenInformation := (false, 0),
    CreateBoundaryDescriptorW := 0, AddSIDToBoundaryDescriptor := (false, 0),
    CreatePrivateNamespaceW := 0, OpenPrivateNamespace := 0,
    GetUserNameEx := some a, GetLastError := 0 }

/-- A thread that has not called anything yet. -/
def idle_thread : Thread := { pc := Pc.idle, calls := [], outcomes := [] }

/-- A process with an empty handle and three threads that have not called anything yet. -/
def three_threads : System :=
  { g_user_private_namespace := NULL, threads := [idle_thread, idle_thread, idle_thread] }

/-- A process that has made no call yet: empty handle, empty log. -/
def fresh : Proc := { g_user_private_namespace := 0, calls := [] }

/-- The text the spec calls the sanitized account: every backslash replaced by a dot. -/
def sanitized (a : List Char) : List Char :=
  a.map (fun c => if c = '\\' then '.' else c)

/-! ## Lemmas on strings -/

theorem c_str_append_nul (l rest : List Char) (h : '\x00' ∉ l) :
    c_str (l ++ '\x00' :: rest) = l := by
  induction l with
  | nil => simp [c_str]
  | cons c l ih =>
    have hc : c ≠ '\x00' := fun e => h (by simp [e])
    have hl : '\x00' ∉ l := fun e => h (by simp [e])
    have ih1 := ih hl
    simp only [c_str] at ih1 ⊢
    simp [List.takeWhile_cons, hc, ih1]

theorem std_replace_zero (buf : List Char) (o n : Char) : std_replace buf 0 o n = buf := by
  cases buf <;> rfl

theorem std_replace_whole (a rest : List Char) (o n : Char) :
    std_replace (a ++ rest) a.length o n = a.map (fun c => if c = o then n else c) ++ rest := by
  induction a with
  | nil => simp [std_replace_zero]
  | cons c a ih => simp [std_replace, ih]

theorem sanitized_no_backslash (a : List Char) : '\\' ∉ sanitized a := by
  intro h
  simp only [sanitized, List.mem_map] at h
  obtain ⟨c, _, hc⟩ := h
  by_cases e : c = '\\'
  · rw [if_pos e] at hc
    exact absurd hc (by decide)
  · rw [if_neg e] at hc
    exact e hc

theorem sanitized_no_nul (a : List Char) (h : '\x00' ∉ a) : '\x00' ∉ sanitized a := by
  intro h1
  simp only [sanitized, List.mem_map] at h1
  obtain ⟨c, hc, e⟩ := h1
  by_cases e1 : c = '\\'
  · rw [if_pos e1] at e
    exact absurd e (by decide)
  · rw [if_neg e1] at e
    exact h (e ▸ hc)

/-- The fallback block when the account-name query succeeds with a NUL-free name. -/
theorem user_fallback_ok (os : OSAnswers) (st : Proc) (a : List Char)
    (ha : os.GetUserNameEx = some a) (hnul : '\x00' ∉ a) :
    user_fallback os st =
      (st.log [OsCall.GetUserNameEx],
        Except.ok ("Local\\boost.log.user." ++ String.mk (sanitized a))) := by
  have h1 : std_replace (a ++ ['\x00']) a.length '\\' '.' = sanitized a ++ ['\x00'] :=
    std_replace_whole a ['\x00'] '\\' '.'
  have h2 : c_str (sanitized a ++ ['\x00']) = sanitized a :=
    c_str_append_nul (sanitized a) [] (sanitized_no_nul a hnul)
  simp only [user_fallback, ha, h1, utf16_to_utf8, h2]

/-- The fallback block when the account-name query fails. -/
theorem user_fallback_error (os : OSAnswers) (st : Proc) (ha : os.GetUserNameEx = none) :
    user_fallback os st =
      ((st.log [OsCall.GetUserNameEx]).log [OsCall.GetLastError],
        Except.error ⟨"Failed to obtain the current user name", os.GetLastError⟩) := by
  simp only [user_fallback, ha]

/-- The fallback block returns a string exactly when the account-name query succeeds. -/
theorem user_fallback_cases (os : OSAnswers) (st : Proc) :
    (os.GetUserNameEx = none ∧ (user_fallback os st).2 =
        Except.error ⟨"Failed to obtain the current user name", os.GetLastError⟩) ∨
    (os.GetUserNameEx ≠ none ∧ ∃ s, (user_fallback os st).2 = Except.ok s) := by
  cases ha : os.GetUserNameEx with
  | none => exact Or.inl ⟨rfl, by rw [user_fallback_error os st ha]⟩
  | some a => exact Or.inr ⟨by simp, by simp [user_fallback, ha]⟩

/-! ## Lemmas on `init_user_namespace` -/


theorem init_acquire_handle (os : OSAnswers) (st : Proc) :
    (init_acquire os st).1.g_user_private_namespace = st.g_user_private_namespace := by
  unfold init_acquire
  simp only [Proc.log]
  split_ifs <;> rfl

theorem init_acquire_of_set (os : OSAnswers) (st : Proc)
    (h : st.g_user_private_namespace ≠ NULL) :
    init_acquire os st = (st, InitPoint.returned st.g_user_private_namespace true) := by
  unfold init_acquire
  simp [h]

theorem init_acquire_publishing (os : OSAnswers) (st : Proc) (h b t : HANDLE)
    (hp : (init_acquire os st).2 = InitPoint.publishing h b t) :
    h ≠ NULL ∧ st.g_user_private_namespace = NULL := by
  unfold init_acquire at hp
  simp only [Proc.log] at hp
  split_ifs at hp <;> simp_all

theorem init_acquire_returned (os : OSAnswers) (st : Proc) (h : HANDLE) (r : Bool)
    (hp : (init_acquire os st).2 = InitPoint.returned h r) :
    h = st.g_user_private_namespace ∧ r = decide (st.g_user_private_namespace ≠ NULL) := by
  unfold init_acquire at hp
  simp only [Proc.log] at hp
  split_ifs at hp <;> simp_all

theorem init_acquire_frame (os : OSAnswers) (st : Proc) :
    (init_acquire os st).2 = (init_acquire os (Proc.mk st.g_user_private_namespace [])).2 ∧
    (init_acquire os st).1.calls =
      st.calls ++ (init_acquire os (Proc.mk st.g_user_private_namespace [])).1.calls := by
  unfold init_acquire
  simp only [Proc.log]
  split_ifs <;> simp

theorem init_publish_win (h b t : HANDLE) (st : Proc) (hg : st.g_user_private_namespace = NULL) :
    init_publish h b t st =
      (Proc.mk h (st.calls ++ (auto_boundary_descriptor_dtor b ++ auto_handle_dtor t)),
        h, decide (h ≠ NULL)) := by
  simp [init_publish, hg, Proc.log]

theorem init_publish_lose (h b t : HANDLE) (st : Proc) (hg : st.g_user_private_namespace ≠ NULL) :
    init_publish h b t st =
      (Proc.mk st.g_user_private_namespace
        (st.calls ++ [OsCall.ClosePrivateNamespace h] ++
          (auto_boundary_descriptor_dtor b ++ auto_handle_dtor t)),
        st.g_user_private_namespace, true) := by
  simp [init_publish, hg, Proc.log]

theorem user_fallback_handle (os : OSAnswers) (st : Proc) :
    (user_fallback os st).1.g_user_private_namespace = st.g_user_private_namespace := by
  unfold user_fallback
  cases os.GetUserNameEx <;> rfl

theorem user_scope_case_handle (os : OSAnswers) (a : Bool) (st : Proc) :
    (user_scope_case os a st).1.g_user_private_namespace = st.g_user_private_namespace := by
  unfold user_scope_case
  cases a
  · simpa using user_fallback_handle os st
  · rfl


theorem init_acquire_calls (os : OSAnswers) (st : Proc) :
    ∃ new, (init_acquire os st).1.calls = st.calls ++ new ∧
      OsCall.GetUserNameEx ∉ new ∧ OsCall.GetLastError ∉ new := by
  unfold init_acquire
  simp only [Proc.log, auto_handle_dtor, auto_boundary_descriptor_dtor]
  split_ifs <;> simp [List.append_assoc]

theorem init_publish_calls (h b t : HANDLE) (st : Proc) :
    ∃ new, (init_publish h b t st).1.calls = st.calls ++ new ∧
      OsCall.GetUserNameEx ∉ new ∧ OsCall.GetLastError ∉ new := by
  unfold init_publish
  simp only [Proc.log, auto_handle_dtor, auto_boundary_descriptor_dtor]
  split_ifs <;> simp [List.append_assoc]

/-- The calls `init_user_namespace` adds to the log hold no account-name query. -/
theorem init_user_namespace_calls (os : OSAnswers) (st : Proc) :
    ∃ new, (init_user_namespace os st).1.calls = st.calls ++ new ∧
      OsCall.GetUserNameEx ∉ new ∧ OsCall.GetLastError ∉ new := by
  obtain ⟨n1, h1, h2, h3⟩ := init_acquire_calls os st
  unfold init_user_namespace
  rcases hq : init_acquire os st with ⟨st1, pt⟩
  rw [hq] at h1
  cases pt with
  | returned h r => exact ⟨n1, h1, h2, h3⟩
  | publishing h b t =>
    obtain ⟨n2, k1, k2, k3⟩ := init_publish_calls h b t st1
    refine ⟨n1 ++ n2, ?_, ?_, ?_⟩
    · simp only at h1 ⊢
      rw [k1, h1, List.append_assoc]
    · simp [h2, k2]
    · simp [h3, k3]

/-- With the handle set, `init_user_namespace` returns `true` and touches nothing. -/
theorem init_user_namespace_of_set (os : OSAnswers) (st : Proc)
    (h : st.g_user_private_namespace ≠ NULL) : init_user_namespace os st = (st, true) := by
  simp [init_user_namespace, init_acquire_of_set os st h]

/-! ## Lemmas on `get_scope_prefix` -/

/-- The `user` case under the Vista configuration is `init_user_namespace` followed by the
rest of the case and the final `push_back`. -/
theorem get_scope_prefix_user_vista (os : OSAnswers) (st : Proc) :
    get_scope_prefix true os st scope.user =
      ((user_scope_case os (init_user_namespace os st).2 (init_user_namespace os st).1).1,
        (user_scope_case os (init_user_namespace os st).2 (init_user_namespace os st).1).2.map
          (fun s => s.push '.')) := by
  simp [ get_scope_prefix]

/-- The `user` case when the private namespace is available. -/
theorem get_scope_prefix_user_available (os : OSAnswers) (st : Proc)
    (h : (init_user_namespace os st).2 = true) :
    get_scope_prefix true os st scope.user =
      ((init_user_namespace os st).1, Except.ok "User\\boost.log.user.") := by
  rw [get_scope_prefix_user_vista, user_scope_case, if_pos h]
  rfl

/-- The `user` case when the private namespace is unavailable: the state reached by
`init_user_namespace` (or the initial one, without the Vista configuration) followed by
the fallback block. -/
theorem get_scope_prefix_user_unavailable (vista : Bool) (os : OSAnswers) (st : Proc)
    (h : vista = false ∨ (init_user_namespace os st).2 = false) :
    ∃ st1, get_scope_prefix vista os st scope.user =
      ((user_fallback os st1).1, (user_fallback os st1).2.map (fun s => s.push '.')) := by
  cases vista with
  | false => exact ⟨st, by simp [ get_scope_prefix]⟩
  | true =>
    have h1 : (init_user_namespace os st).2 = false := by
      rcases h with h | h
      · exact absurd h (by decide)
      · exact h
    refine ⟨(init_user_namespace os st).1, ?_⟩
    rw [get_scope_prefix_user_vista, user_scope_case, h1]
    simp

/-- Scopes other than `user`: the state is untouched and a literal is returned. -/
theorem get_scope_prefix_other (vista : Bool) (os : OSAnswers) (st : Proc) (ns : scope)
    (h : ns ≠ scope.user) :
    get_scope_prefix vista os st ns =
      (st, Except.ok (match ns with
        | scope.process_group => "Local\\boost.log.process_group."
        | scope.session => "Local\\boost.log.session."
        | _ => "Global\\boost.log.global.")) := by
  cases ns with
  | user => exact absurd rfl h
  | global => rfl
  | session => rfl
  | process_group => rfl
  | unrecognised raw => rfl

/-! ## The name of an object (C1) -/

/-- C1: for every scope and every suffix, a construction of `object_name` that succeeds
stores the string returned by `get_scope_prefix` for the scope followed by the suffix,
unchanged and in full (for the `const char*` constructor the suffix is the NUL-terminated
text at the pointer); the two constructors give the same result for the same suffix text. -/
theorem object_name_is_scope_literal_then_suffix (vista : Bool) (os : OSAnswers) (st : Proc)
    (ns : scope) :
    (∀ (str : String) (st' : Proc) (n : object_name),
      object_name.of_string vista os st ns str = (st', Except.ok n) →
      ∃ p, get_scope_prefix vista os st ns = (st', Except.ok p) ∧ n.m_name = p ++ str) ∧
    (∀ (str : List Char) (st' : Proc) (n : object_name),
      object_name.of_c_str vista os st ns str = (st', Except.ok n) →
      ∃ p, get_scope_prefix vista os st ns = (st', Except.ok p) ∧
        n.m_name = p ++ String.mk (c_str str)) ∧
    (∀ str : List Char, object_name.of_c_str vista os st ns str =
      object_name.of_string vista os st ns (String.mk (c_str str))) ∧
    (∀ str : String, '\x00' ∉ str.data →
      object_name.of_c_str vista os st ns (str.data ++ ['\x00']) =
        object_name.of_string vista os st ns str) := by
  refine ⟨?_, ?_, ?_, ?_⟩
  · intro str st' n h
    simp only [object_name.of_string] at h
    rcases hg : get_scope_prefix vista os st ns with ⟨st1, r⟩
    rw [hg] at h
    cases r with
    | error e => simp [Except.map] at h
    | ok p =>
      simp only [Except.map, Prod.mk.injEq, Except.ok.injEq] at h
      exact ⟨p, by rw [h.1], by rw [← h.2]⟩
  · intro str st' n h
    simp only [object_name.of_c_str] at h
    rcases hg : get_scope_prefix vista os st ns with ⟨st1, r⟩
    rw [hg] at h
    cases r with
    | error e => simp [Except.map] at h
    | ok p =>
      simp only [Except.map, Prod.mk.injEq, Except.ok.injEq] at h
      exact ⟨p, by rw [h.1], by rw [← h.2]⟩
  · intro str
    rfl
  · intro str hnul
    have h := c_str_append_nul str.data [] hnul
    simp only [object_name.of_c_str, object_name.of_string, h]

/-- C1 at a concrete input: the `std::string` constructor for scope `session` and suffix
`myqueue`. -/
theorem object_name_is_scope_literal_then_suffix_witness :
    object_name.of_string true os_denied fresh scope.session "myqueue" =
      (fresh, Except.ok (object_name.mk "Local\\boost.log.session.myqueue")) ∧
    (∃ p, get_scope_prefix true os_denied fresh scope.session = (fresh, Except.ok p) ∧
      (object_name.mk "Local\\boost.log.session.myqueue").m_name = p ++ "myqueue") ∧
    object_name.of_c_str true os_denied fresh scope.session ("myqueue".data ++ ['\x00']) =
      object_name.of_string true os_denied fresh scope.session "myqueue" :=
  ⟨rfl,
    (object_name_is_scope_literal_then_suffix true os_denied fresh scope.session).1
      "myqueue" fresh _ rfl,
    (object_name_is_scope_literal_then_suffix true os_denied fresh scope.session).2.2.2
      "myqueue" (by decide)⟩

/-! ## Scopes other than `user` (C2) -/

/-- C2: for every scope other than `user`, whatever the configuration, the OS answers and
the process state, `get_scope_prefix` returns without an exception, leaves the process state
(the namespace handle and the log of OS calls) as it found it, and returns a literal fixed
by the scope: `process_group` gives `Local\boost.log.process_group.`, `session` gives
`Local\boost.log.session.`, `global` and every unrecognised value give
`Global\boost.log.global.`; so the names for (session, `myqueue`) and (process_group,
`lock1`) are `Local\boost.log.session.myqueue` and `Local\boost.log.process_group.lock1`. -/
theorem scope_literal_of_other_scopes (vista : Bool) (os : OSAnswers) (st : Proc) :
    get_scope_prefix vista os st scope.process_group =
      (st, Except.ok "Local\\boost.log.process_group.") ∧
    get_scope_prefix vista os st scope.session = (st, Except.ok "Local\\boost.log.session.") ∧
    get_scope_prefix vista os st scope.global = (st, Except.ok "Global\\boost.log.global.") ∧
    (∀ raw : Nat, get_scope_prefix vista os st (scope.unrecognised raw) =
      (st, Except.ok "Global\\boost.log.global.")) ∧
    (∀ ns : scope, ns ≠ scope.user →
      (∃ p, get_scope_prefix vista os st ns = (st, Except.ok p)) ∧
      ∀ (vista' : Bool) (os' : OSAnswers) (st' : Proc),
        ( get_scope_prefix vista' os' st' ns).2 = ( get_scope_prefix vista os st ns).2) ∧
    object_name.of_string vista os st scope.session "myqueue" =
      (st, Except.ok (object_name.mk "Local\\boost.log.session.myqueue")) ∧
    object_name.of_c_str vista os st scope.session ("myqueue".data ++ ['\x00']) =
      (st, Except.ok (object_name.mk "Local\\boost.log.session.myqueue")) ∧
    object_name.of_string vista os st scope.process_group "lock1" =
      (st, Except.ok (object_name.mk "Local\\boost.log.process_group.lock1")) ∧
    object_name.of_c_str vista os st scope.process_group ("lock1".data ++ ['\x00']) =
      (st, Except.ok (object_name.mk "Local\\boost.log.process_group.lock1")) := by
  refine ⟨rfl, rfl, rfl, fun _ => rfl, ?_, rfl, rfl, rfl, rfl⟩
  intro ns hns
  refine ⟨⟨_, get_scope_prefix_other vista os st ns hns⟩, ?_⟩
  intro vista' os' st'
  rw [get_scope_prefix_other vista os st ns hns, get_scope_prefix_other vista' os' st' ns hns]

/-- C2 at a concrete input: the unrecognised scope value 17, in a process whose handle is
set, gives the global literal and touches nothing. -/
theorem scope_literal_of_other_scopes_witness :
    (∃ p, get_scope_prefix true os_created (Proc.mk 11 []) (scope.unrecognised 17) =
      (Proc.mk 11 [], Except.ok p)) ∧
    ( get_scope_prefix false os_failing fresh (scope.unrecognised 17)).2 =
      ( get_scope_prefix true os_created (Proc.mk 11 []) (scope.unrecognised 17)).2 :=
  ⟨((scope_literal_of_other_scopes true os_created (Proc.mk 11 [])).2.2.2.2.1
      (scope.unrecognised 17) (by decide)).1,
    ((scope_literal_of_other_scopes true os_created (Proc.mk 11 [])).2.2.2.2.1
      (scope.unrecognised 17) (by decide)).2 false os_failing fresh⟩

/-- How `get_scope_prefix` ends: with the exception of the failed account-name query, in the
`user` scope with the namespace unavailable and the query failing, and with a string in
every other case. -/
theorem get_scope_prefix_result (vista : Bool) (os : OSAnswers) (st : Proc) (ns : scope) :
    ((ns = scope.user ∧ (vista = false ∨ (init_user_namespace os st).2 = false) ∧
        os.GetUserNameEx = none) ∧
      ( get_scope_prefix vista os st ns).2 =
        Except.error ⟨"Failed to obtain the current user name", os.GetLastError⟩) ∨
    (¬ (ns = scope.user ∧ (vista = false ∨ (init_user_namespace os st).2 = false) ∧
        os.GetUserNameEx = none) ∧
      ∃ p, ( get_scope_prefix vista os st ns).2 = Except.ok p) := by
  by_cases hns : ns = scope.user
  · subst hns
    by_cases hun : vista = false ∨ (init_user_namespace os st).2 = false
    · obtain ⟨st1, h1⟩ := get_scope_prefix_user_unavailable vista os st hun
      rcases user_fallback_cases os st1 with ⟨hq, he⟩ | ⟨hq, s, hs⟩
      · left
        refine ⟨⟨rfl, hun, hq⟩, ?_⟩
        rw [h1]
        simp only [he]
        rfl
      · right
        refine ⟨fun hc => hq hc.2.2, (s.push '.'), ?_⟩
        rw [h1]
        simp only [hs]
        rfl
    · right
      refine ⟨fun hc => hun hc.2.1, ?_⟩
      have hv : vista = true := by
        cases vista
        · exact absurd (Or.inl rfl) hun
        · rfl
      have hi : (init_user_namespace os st).2 = true := by
        cases hb : (init_user_namespace os st).2
        · exact absurd (Or.inr hb) hun
        · rfl
      subst hv
      exact ⟨_, by rw [get_scope_prefix_user_available os st hi]⟩
  · right
    refine ⟨fun hc => hns hc.1, ?_⟩
    exact ⟨_, by rw [get_scope_prefix_other vista os st ns hns]⟩

/-! ## The `user` scope with the private namespace (C3) -/

/-- C3: in the `user` scope (in the Vista configuration, the one in which
`init_user_namespace` exists), whenever `init_user_namespace` reports the private namespace
available, `get_scope_prefix` returns exactly `User\boost.log.user.` in the state
`init_user_namespace` leaves, and the account name is not queried (the log counts as many
`GetUserNameEx` calls as before); the name for suffix `evt` is `User\boost.log.user.evt`;
the returned string is the same under any other OS answers (any account name) and in any
other process state in which the namespace is reported available. -/
theorem user_scope_with_private_namespace (os : OSAnswers) (st : Proc)
    (h : (init_user_namespace os st).2 = true) :
    get_scope_prefix true os st scope.user =
      ((init_user_namespace os st).1, Except.ok "User\\boost.log.user.") ∧
    ( get_scope_prefix true os st scope.user).1.calls.count OsCall.GetUserNameEx =
      st.calls.count OsCall.GetUserNameEx ∧
    (object_name.of_string true os st scope.user "evt").2 =
      Except.ok (object_name.mk "User\\boost.log.user.evt") ∧
    (object_name.of_c_str true os st scope.user ("evt".data ++ ['\x00'])).2 =
      Except.ok (object_name.mk "User\\boost.log.user.evt") ∧
    (∀ (os' : OSAnswers) (st' : Proc), (init_user_namespace os' st').2 = true →
      ( get_scope_prefix true os' st' scope.user).2 =
        ( get_scope_prefix true os st scope.user).2) := by
  have hp := get_scope_prefix_user_available os st h
  refine ⟨hp, ?_, ?_, ?_, ?_⟩
  · rw [hp]
    obtain ⟨new, h1, h2, _⟩ := init_user_namespace_calls os st
    simp only [h1, List.count_append]
    rw [List.count_eq_zero.mpr h2]
    rfl
  · simp only [object_name.of_string, hp]
    rfl
  · simp only [object_name.of_c_str, hp]
    rfl
  · intro os' st' h'
    rw [hp, get_scope_prefix_user_available os' st' h']

/-- C3 at a concrete input: a fresh process in which every OS call succeeds. -/
theorem user_scope_with_private_namespace_witness :
    (init_user_namespace os_created fresh).2 = true ∧
    ( get_scope_prefix true os_created fresh scope.user).2 =
      Except.ok "User\\boost.log.user." ∧
    ( get_scope_prefix true os_created fresh scope.user).1.calls.count OsCall.GetUserNameEx
      = 0 :=
  ⟨rfl,
    congrArg Prod.snd (user_scope_with_private_namespace os_created fresh rfl).1,
    (user_scope_with_private_namespace os_created fresh rfl).2.1⟩

/-! ## The `user` scope without the private namespace (C4) -/

/-- C4: in the `user` scope, when the private namespace is unavailable and the account-name
query succeeds with the account name `a` (a NUL-terminated string, so without a NUL inside),
`get_scope_prefix` returns `Local\boost.log.user.` followed by `a` with every backslash
replaced by a dot, followed by a dot; what follows `Local\` holds no backslash; for the
account `DOMAIN\alice` and the suffix `evt` the name is
`Local\boost.log.user.DOMAIN.alice.evt`. -/
theorem user_scope_fallback_sanitizes_account (vista : Bool) (os : OSAnswers) (st : Proc)
    (a : List Char)
    (hun : vista = false ∨ (init_user_namespace os st).2 = false)
    (ha : os.GetUserNameEx = some a) (hnul : '\x00' ∉ a) :
    ( get_scope_prefix vista os st scope.user).2 =
      Except.ok ("Local\\boost.log.user." ++
        String.mk (a.map (fun c => if c = '\\' then '.' else c)) ++ ".") ∧
    (∃ rest : String,
      ( get_scope_prefix vista os st scope.user).2 = Except.ok ("Local\\" ++ rest) ∧
      '\\' ∉ rest.data) ∧
    (a = "DOMAIN\\alice".data →
      (object_name.of_string vista os st scope.user "evt").2 =
        Except.ok (object_name.mk "Local\\boost.log.user.DOMAIN.alice.evt")) := by
  obtain ⟨st1, h1⟩ := get_scope_prefix_user_unavailable vista os st hun
  have h2 := user_fallback_ok os st1 a ha hnul
  have h3 : ( get_scope_prefix vista os st scope.user).2 =
      Except.ok ("Local\\boost.log.user." ++ String.mk (sanitized a) ++ ".") := by
    rw [h1, h2]
    rfl
  refine ⟨h3, ⟨"boost.log.user." ++ String.mk (sanitized a) ++ ".", ?_, ?_⟩, ?_⟩
  · rw [h3]
    rfl
  · have hs := sanitized_no_backslash a
    simp only [String.data_append, List.mem_append, not_or]
    exact ⟨⟨by decide, hs⟩, by decide⟩
  · intro e
    subst e
    simp only [object_name.of_string, h3]
    rfl

/-- C4 at a concrete input: the token query fails and the account is `DOMAIN\alice`. -/
theorem user_scope_fallback_sanitizes_account_witness :
    (init_user_namespace os_denied fresh).2 = false ∧
    os_denied.GetUserNameEx = some "DOMAIN\\alice".data ∧
    ( get_scope_prefix true os_denied fresh scope.user).2 =
      Except.ok "Local\\boost.log.user.DOMAIN.alice." ∧
    (object_name.of_string true os_denied fresh scope.user "evt").2 =
      Except.ok (object_name.mk "Local\\boost.log.user.DOMAIN.alice.evt") :=
  ⟨rfl, rfl,
    (user_scope_fallback_sanitizes_account true os_denied fresh "DOMAIN\\alice".data
      (Or.inr rfl) rfl (by decide)).1,
    (user_scope_fallback_sanitizes_account true os_denied fresh "DOMAIN\\alice".data
      (Or.inr rfl) rfl (by decide)).2.2 rfl⟩

/-! ## The only failure (C5) -/

/-- C5: a construction of `object_name` ends with an exception if and only if the scope is
`user`, the private namespace is unavailable and the account-name query fails; the
exception is then the `system_error` that carries the code `GetLastError()` reported for
the failed query, and no name is returned; in every other case a name is returned. This
holds for both constructors. -/
theorem construction_fails_iff_account_query_fails (vista : Bool) (os : OSAnswers) (st : Proc)
    (ns : scope) :
    (∀ str : String,
      ((∃ e, (object_name.of_string vista os st ns str).2 = Except.error e) ↔
        (ns = scope.user ∧ (vista = false ∨ (init_user_namespace os st).2 = false) ∧
          os.GetUserNameEx = none)) ∧
      (∀ e, (object_name.of_string vista os st ns str).2 = Except.error e →
        e.code = os.GetLastError ∧
        ∀ n, (object_name.of_string vista os st ns str).2 ≠ Except.ok n) ∧
      ((∃ n, (object_name.of_string vista os st ns str).2 = Except.ok n) ↔
        ¬ (ns = scope.user ∧ (vista = false ∨ (init_user_namespace os st).2 = false) ∧
          os.GetUserNameEx = none))) ∧
    (∀ str : List Char,
      ((∃ e, (object_name.of_c_str vista os st ns str).2 = Except.error e) ↔
        (ns = scope.user ∧ (vista = false ∨ (init_user_namespace os st).2 = false) ∧
          os.GetUserNameEx = none)) ∧
      (∀ e, (object_name.of_c_str vista os st ns str).2 = Except.error e →
        e.code = os.GetLastError ∧
        ∀ n, (object_name.of_c_str vista os st ns str).2 ≠ Except.ok n) ∧
      ((∃ n, (object_name.of_c_str vista os st ns str).2 = Except.ok n) ↔
        ¬ (ns = scope.user ∧ (vista = false ∨ (init_user_namespace os st).2 = false) ∧
          os.GetUserNameEx = none))) := by
  constructor
  · intro str
    simp only [object_name.of_string]
    rcases get_scope_prefix_result vista os st ns with ⟨hc, he⟩ | ⟨hc, p, hp⟩
    · rw [he]
      simp only [Except.map]
      refine ⟨⟨fun _ => hc, fun _ => ⟨_, rfl⟩⟩, ?_, ⟨fun ⟨n, hn⟩ => by simp at hn, fun h => absurd hc h⟩⟩
      intro e h
      simp only [Except.error.injEq] at h
      exact ⟨by rw [← h], fun n hn => by simp at hn⟩
    · rw [hp]
      simp only [Except.map]
      refine ⟨⟨fun ⟨e, h⟩ => by simp at h, fun h => absurd h hc⟩, ?_, ⟨fun _ => hc, fun _ => ⟨_, rfl⟩⟩⟩
      intro e h
      simp at h
  · intro str
    simp only [object_name.of_c_str]
    rcases get_scope_prefix_result vista os st ns with ⟨hc, he⟩ | ⟨hc, p, hp⟩
    · rw [he]
      simp only [Except.map]
      refine ⟨⟨fun _ => hc, fun _ => ⟨_, rfl⟩⟩, ?_, ⟨fun ⟨n, hn⟩ => by simp at hn, fun h => absurd hc h⟩⟩
      intro e h
      simp only [Except.error.injEq] at h
      exact ⟨by rw [← h], fun n hn => by simp at hn⟩
    · rw [hp]
      simp only [Except.map]
      refine ⟨⟨fun ⟨e, h⟩ => by simp at h, fun h => absurd h hc⟩, ?_, ⟨fun _ => hc, fun _ => ⟨_, rfl⟩⟩⟩
      intro e h
      simp at h

/-- C5 at a concrete input: namespace unavailable and the account-name query failing with
code 1314 gives the exception with code 1314; the same process with the account name
`DOMAIN\alice` gives a name. -/
theorem construction_fails_iff_account_query_fails_witness :
    (object_name.of_string true os_failing fresh scope.user "evt").2 =
      Except.error ⟨"Failed to obtain the current user name", 1314⟩ ∧
    (system_error.mk "Failed to obtain the current user name" 1314).code =
      os_failing.GetLastError ∧
    (∃ n, (object_name.of_string true os_denied fresh scope.user "evt").2 = Except.ok n) :=
  ⟨rfl,
    (((construction_fails_iff_account_query_fails true os_failing fresh scope.user).1
      "evt").2.1 _ rfl).1,
    ((construction_fails_iff_account_query_fails true os_denied fresh scope.user).1
      "evt").2.2.mpr (fun h => absurd h.2.2 (by decide))⟩

/-! ## The paths of `init_user_namespace` from an empty handle -/

theorem init_path_no_token (os : OSAnswers) (st : Proc)
    (h0 : st.g_user_private_namespace = NULL) (h1 : os.OpenProcessToken.1 = false) :
    init_user_namespace os st =
      (Proc.mk NULL (st.calls ++ [OsCall.GetCurrentProcess, OsCall.OpenProcessToken] ++
        auto_handle_dtor os.OpenProcessToken.2), false) := by
  simp [init_user_namespace, init_acquire, Proc.log, h0, h1]

theorem init_path_no_sid (os : OSAnswers) (st : Proc)
    (h0 : st.g_user_private_namespace = NULL) (h1 : os.OpenProcessToken.1 = true)
    (h2 : os.GetTokenInformation.1 = false ∨ os.GetTokenInformation.2 = NULL) :
    init_user_namespace os st =
      (Proc.mk NULL (st.calls ++ [OsCall.GetCurrentProcess, OsCall.OpenProcessToken,
        OsCall.GetTokenInformation os.OpenProcessToken.2] ++
        auto_handle_dtor os.OpenProcessToken.2), false) := by
  simp [init_user_namespace, init_acquire, Proc.log, h0, h1, h2]

theorem init_path_no_boundary (os : OSAnswers) (st : Proc)
    (h0 : st.g_user_private_namespace = NULL) (h1 : os.OpenProcessToken.1 = true)
    (h2 : os.GetTokenInformation.1 = true) (h3 : os.GetTokenInformation.2 ≠ NULL)
    (h4 : os.CreateBoundaryDescriptorW = NULL) :
    init_user_namespace os st =
      (Proc.mk NULL (st.calls ++ [OsCall.GetCurrentProcess, OsCall.OpenProcessToken,
        OsCall.GetTokenInformation os.OpenProcessToken.2,
        OsCall.CreateBoundaryDescriptorW] ++
        auto_handle_dtor os.OpenProcessToken.2), false) := by
  simp [init_user_namespace, init_acquire, Proc.log, h0, h1, h2, h3, h4,
    auto_boundary_descriptor_dtor]

theorem init_path_sid_not_added (os : OSAnswers) (st : Proc)
    (h0 : st.g_user_private_namespace = NULL) (h1 : os.OpenProcessToken.1 = true)
    (h2 : os.GetTokenInformation.1 = true) (h3 : os.GetTokenInformation.2 ≠ NULL)
    (h4 : os.CreateBoundaryDescriptorW ≠ NULL)
    (h5 : os.AddSIDToBoundaryDescriptor.1 = false) :
    init_user_namespace os st =
      (Proc.mk NULL (st.calls ++ [OsCall.GetCurrentProcess, OsCall.OpenProcessToken,
        OsCall.GetTokenInformation os.OpenProcessToken.2,
        OsCall.CreateBoundaryDescriptorW,
        OsCall.AddSIDToBoundaryDescriptor os.CreateBoundaryDescriptorW
          os.GetTokenInformation.2] ++
        auto_boundary_descriptor_dtor os.AddSIDToBoundaryDescriptor.2 ++
        auto_handle_dtor os.OpenProcessToken.2), false) := by
  simp [init_user_namespace, init_acquire, Proc.log, h0, h1, h2, h3, h4, h5]

theorem init_path_no_namespace (os : OSAnswers) (st : Proc)
    (h0 : st.g_user_private_namespace = NULL) (h1 : os.OpenProcessToken.1 = true)
    (h2 : os.GetTokenInformation.1 = true) (h3 : os.GetTokenInformation.2 ≠ NULL)
    (h4 : os.CreateBoundaryDescriptorW ≠ NULL)
    (h5 : os.AddSIDToBoundaryDescriptor.1 = true)
    (h6 : os.CreatePrivateNamespaceW = NULL) (h7 : os.OpenPrivateNamespace = NULL) :
    init_user_namespace os st =
      (Proc.mk NULL (st.calls ++ [OsCall.GetCurrentProcess, OsCall.OpenProcessToken,
        OsCall.GetTokenInformation os.OpenProcessToken.2,
        OsCall.CreateBoundaryDescriptorW,
        OsCall.AddSIDToBoundaryDescriptor os.CreateBoundaryDescriptorW
          os.GetTokenInformation.2,
        OsCall.CreatePrivateNamespaceW os.AddSIDToBoundaryDescriptor.2,
        OsCall.OpenPrivateNamespace os.AddSIDToBoundaryDescriptor.2] ++
        auto_boundary_descriptor_dtor os.AddSIDToBoundaryDescriptor.2 ++
        auto_handle_dtor os.OpenProcessToken.2), false) := by
  simp [init_user_namespace, init_acquire, Proc.log, h0, h1, h2, h3, h4, h5, h6, h7]

theorem init_path_created (os : OSAnswers) (st : Proc)
    (h0 : st.g_user_private_namespace = NULL) (h1 : os.OpenProcessToken.1 = true)
    (h2 : os.GetTokenInformation.1 = true) (h3 : os.GetTokenInformation.2 ≠ NULL)
    (h4 : os.CreateBoundaryDescriptorW ≠ NULL)
    (h5 : os.AddSIDToBoundaryDescriptor.1 = true)
    (h6 : os.CreatePrivateNamespaceW ≠ NULL) :
    init_user_namespace os st =
      (Proc.mk os.CreatePrivateNamespaceW
        (st.calls ++ [OsCall.GetCurrentProcess, OsCall.OpenProcessToken,
        OsCall.GetTokenInformation os.OpenProcessToken.2,
        OsCall.CreateBoundaryDescriptorW,
        OsCall.AddSIDToBoundaryDescriptor os.CreateBoundaryDescriptorW
          os.GetTokenInformation.2,
        OsCall.CreatePrivateNamespaceW os.AddSIDToBoundaryDescriptor.2] ++
        auto_boundary_descriptor_dtor os.AddSIDToBoundaryDescriptor.2 ++
        auto_handle_dtor os.OpenProcessToken.2), true) := by
  simp [init_user_namespace, init_acquire, init_publish, Proc.log, h0, h1, h2, h3, h4, h5, h6]

theorem init_path_opened (os : OSAnswers) (st : Proc)
    (h0 : st.g_user_private_namespace = NULL) (h1 : os.OpenProcessToken.1 = true)
    (h2 : os.GetTokenInformation.1 = true) (h3 : os.GetTokenInformation.2 ≠ NULL)
    (h4 : os.CreateBoundaryDescriptorW ≠ NULL)
    (h5 : os.AddSIDToBoundaryDescriptor.1 = true)
    (h6 : os.CreatePrivateNamespaceW = NULL) (h7 : os.OpenPrivateNamespace ≠ NULL) :
    init_user_namespace os st =
      (Proc.mk os.OpenPrivateNamespace
        (st.calls ++ [OsCall.GetCurrentProcess, OsCall.OpenProcessToken,
        OsCall.GetTokenInformation os.OpenProcessToken.2,
        OsCall.CreateBoundaryDescriptorW,
        OsCall.AddSIDToBoundaryDescriptor os.CreateBoundaryDescriptorW
          os.GetTokenInformation.2,
        OsCall.CreatePrivateNamespaceW os.AddSIDToBoundaryDescriptor.2,
        OsCall.OpenPrivateNamespace os.AddSIDToBoundaryDescriptor.2] ++
        auto_boundary_descriptor_dtor os.AddSIDToBoundaryDescriptor.2 ++
        auto_handle_dtor os.OpenProcessToken.2), true) := by
  simp [init_user_namespace, init_acquire, init_publish, Proc.log, h0, h1, h2, h3, h4, h5, h6,
    h7]

/-- From an empty handle, `init_user_namespace` returns `true` exactly when every step up to
the SID being added succeeds and create or open yields a handle. -/
theorem init_from_empty_iff (os : OSAnswers) (st : Proc)
    (h0 : st.g_user_private_namespace = NULL) :
    (init_user_namespace os st).2 = true ↔
      (os.OpenProcessToken.1 = true ∧ os.GetTokenInformation.1 = true ∧
        os.GetTokenInformation.2 ≠ NULL ∧ os.CreateBoundaryDescriptorW ≠ NULL ∧
        os.AddSIDToBoundaryDescriptor.1 = true ∧
        (os.CreatePrivateNamespaceW ≠ NULL ∨ os.OpenPrivateNamespace ≠ NULL)) := by
  by_cases h1 : os.OpenProcessToken.1 = true
  swap
  · rw [init_path_no_token os st h0 (by simpa using h1)]
    simp [h1]
  by_cases h2 : os.GetTokenInformation.1 = true
  swap
  · rw [init_path_no_sid os st h0 h1 (Or.inl (by simpa using h2))]
    simp [h2]
  by_cases h3 : os.GetTokenInformation.2 = NULL
  · rw [init_path_no_sid os st h0 h1 (Or.inr h3)]
    simp [h3]
  by_cases h4 : os.CreateBoundaryDescriptorW = NULL
  · rw [init_path_no_boundary os st h0 h1 h2 h3 h4]
    simp [h4]
  by_cases h5 : os.AddSIDToBoundaryDescriptor.1 = true
  swap
  · rw [init_path_sid_not_added os st h0 h1 h2 h3 h4 (by simpa using h5)]
    simp [h5]
  by_cases h6 : os.CreatePrivateNamespaceW = NULL
  swap
  · rw [init_path_created os st h0 h1 h2 h3 h4 h5 h6]
    simp [h1, h2, h3, h4, h5, h6]
  by_cases h7 : os.OpenPrivateNamespace = NULL
  · rw [init_path_no_namespace os st h0 h1 h2 h3 h4 h5 h6 h7]
    simp [h6, h7]
  · rw [init_path_opened os st h0 h1 h2 h3 h4 h5 h6 h7]
    simp [h1, h2, h3, h4, h5, h6, h7]

/-! ## Creating the private namespace (C6) -/

/-- C6: started with an empty handle and run without another thread in between,
`init_user_namespace` returns `true` if and only if opening the process token, querying the
token user (with a non-null SID), creating the boundary descriptor and adding the SID to it
all succeed and then creating the private namespace or opening it yields a handle. The
seven paths follow, each with the handle, the calls added to the log and the flag returned:
on the two successes the process-wide handle holds the created handle, or the opened one,
and `OpenPrivateNamespace` is called only after creation failed; on each of the five
failures `false` is returned (nothing is raised), the handle stays empty, and no OS step
after the failed one is made (only the guards release what they hold). -/
theorem init_user_namespace_from_empty (os : OSAnswers) (st : Proc)
    (h0 : st.g_user_private_namespace = NULL) :
    ((init_user_namespace os st).2 = true ↔
      (os.OpenProcessToken.1 = true ∧ os.GetTokenInformation.1 = true ∧
        os.GetTokenInformation.2 ≠ NULL ∧ os.CreateBoundaryDescriptorW ≠ NULL ∧
        os.AddSIDToBoundaryDescriptor.1 = true ∧
        (os.CreatePrivateNamespaceW ≠ NULL ∨ os.OpenPrivateNamespace ≠ NULL))) ∧
    (os.OpenProcessToken.1 = true → os.GetTokenInformation.1 = true →
      os.GetTokenInformation.2 ≠ NULL → os.CreateBoundaryDescriptorW ≠ NULL →
      os.AddSIDToBoundaryDescriptor.1 = true → os.CreatePrivateNamespaceW ≠ NULL →
      init_user_namespace os st =
        (Proc.mk os.CreatePrivateNamespaceW
          (st.calls ++ [OsCall.GetCurrentProcess, OsCall.OpenProcessToken,
            OsCall.GetTokenInformation os.OpenProcessToken.2,
            OsCall.CreateBoundaryDescriptorW,
            OsCall.AddSIDToBoundaryDescriptor os.CreateBoundaryDescriptorW
              os.GetTokenInformation.2,
            OsCall.CreatePrivateNamespaceW os.AddSIDToBoundaryDescriptor.2] ++
            auto_boundary_descriptor_dtor os.AddSIDToBoundaryDescriptor.2 ++
            auto_handle_dtor os.OpenProcessToken.2), true)) ∧
    (os.OpenProcessToken.1 = true → os.GetTokenInformation.1 = true →
      os.GetTokenInformation.2 ≠ NULL → os.CreateBoundaryDescriptorW ≠ NULL →
      os.AddSIDToBoundaryDescriptor.1 = true → os.CreatePrivateNamespaceW = NULL →
      os.OpenPrivateNamespace ≠ NULL →
      init_user_namespace os st =
        (Proc.mk os.OpenPrivateNamespace
          (st.calls ++ [OsCall.GetCurrentProcess, OsCall.OpenProcessToken,
            OsCall.GetTokenInformation os.OpenProcessToken.2,
            OsCall.CreateBoundaryDescriptorW,
            OsCall.AddSIDToBoundaryDescriptor os.CreateBoundaryDescriptorW
              os.GetTokenInformation.2,
            OsCall.CreatePrivateNamespaceW os.AddSIDToBoundaryDescriptor.2,
            OsCall.OpenPrivateNamespace os.AddSIDToBoundaryDescriptor.2] ++
            auto_boundary_descriptor_dtor os.AddSIDToBoundaryDescriptor.2 ++
            auto_handle_dtor os.OpenProcessToken.2), true)) ∧
    (os.OpenProcessToken.1 = false →
      init_user_namespace os st =
        (Proc.mk NULL (st.calls ++ [OsCall.GetCurrentProcess, OsCall.OpenProcessToken] ++
          auto_handle_dtor os.OpenProcessToken.2), false)) ∧
    (os.OpenProcessToken.1 = true →
      (os.GetTokenInformation.1 = false ∨ os.GetTokenInformation.2 = NULL) →
      init_user_namespace os st =
        (Proc.mk NULL (st.calls ++ [OsCall.GetCurrentProcess, OsCall.OpenProcessToken,
          OsCall.GetTokenInformation os.OpenProcessToken.2] ++
          auto_handle_dtor os.OpenProcessToken.2), false)) ∧
    (os.OpenProcessToken.1 = true → os.GetTokenInformation.1 = true →
      os.GetTokenInformation.2 ≠ NULL → os.CreateBoundaryDescriptorW = NULL →
      init_user_namespace os st =
        (Proc.mk NULL (st.calls ++ [OsCall.GetCurrentProcess, OsCall.OpenProcessToken,
          OsCall.GetTokenInformation os.OpenProcessToken.2,
          OsCall.CreateBoundaryDescriptorW] ++
          auto_handle_dtor os.OpenProcessToken.2), false)) ∧
    (os.OpenProcessToken.1 = true → os.GetTokenInformation.1 = true →
      os.GetTokenInformation.2 ≠ NULL → os.CreateBoundaryDescriptorW ≠ NULL →
      os.AddSIDToBoundaryDescriptor.1 = false →
      init_user_namespace os st =
        (Proc.mk NULL (st.calls ++ [OsCall.GetCurrentProcess, OsCall.OpenProcessToken,
          OsCall.GetTokenInformation os.OpenProcessToken.2,
          OsCall.CreateBoundaryDescriptorW,
          OsCall.AddSIDToBoundaryDescriptor os.CreateBoundaryDescriptorW
            os.GetTokenInformation.2] ++
          auto_boundary_descriptor_dtor os.AddSIDToBoundaryDescriptor.2 ++
          auto_handle_dtor os.OpenProcessToken.2), false)) ∧
    (os.OpenProcessToken.1 = true → os.GetTokenInformation.1 = true →
      os.GetTokenInformation.2 ≠ NULL → os.CreateBoundaryDescriptorW ≠ NULL →
      os.AddSIDToBoundaryDescriptor.1 = true → os.CreatePrivateNamespaceW = NULL →
      os.OpenPrivateNamespace = NULL →
      init_user_namespace os st =
        (Proc.mk NULL (st.calls ++ [OsCall.GetCurrentProcess, OsCall.OpenProcessToken,
          OsCall.GetTokenInformation os.OpenProcessToken.2,
          OsCall.CreateBoundaryDescriptorW,
          OsCall.AddSIDToBoundaryDescriptor os.CreateBoundaryDescriptorW
            os.GetTokenInformation.2,
          OsCall.CreatePrivateNamespaceW os.AddSIDToBoundaryDescriptor.2,
          OsCall.OpenPrivateNamespace os.AddSIDToBoundaryDescriptor.2] ++
          auto_boundary_descriptor_dtor os.AddSIDToBoundaryDescriptor.2 ++
          auto_handle_dtor os.OpenProcessToken.2), false)) :=
  ⟨init_from_empty_iff os st h0,
    init_path_created os st h0,
    init_path_opened os st h0,
    init_path_no_token os st h0,
    init_path_no_sid os st h0,
    init_path_no_boundary os st h0,
    init_path_sid_not_added os st h0,
    init_path_no_namespace os st h0⟩

/-- C6 at concrete inputs: in a fresh process, with every call succeeding the handle created
(11) is published; with the token query failing `false` is returned after three calls and
the release of the token, and the handle stays empty. -/
theorem init_user_namespace_from_empty_witness :
    init_user_namespace os_created fresh =
      (Proc.mk 11 [OsCall.GetCurrentProcess, OsCall.OpenProcessToken,
        OsCall.GetTokenInformation 5, OsCall.CreateBoundaryDescriptorW,
        OsCall.AddSIDToBoundaryDescriptor 7 9, OsCall.CreatePrivateNamespaceW 7,
        OsCall.DeleteBoundaryDescriptor 7, OsCall.CloseHandle 5], true) ∧
    init_user_namespace os_denied fresh =
      (Proc.mk 0 [OsCall.GetCurrentProcess, OsCall.OpenProcessToken,
        OsCall.GetTokenInformation 5, OsCall.CloseHandle 5], false) :=
  ⟨(init_user_namespace_from_empty os_created fresh rfl).2.1 rfl rfl (by decide) (by decide)
      rfl (by decide),
    (init_user_namespace_from_empty os_denied fresh rfl).2.2.2.2.1 rfl (Or.inl rfl)⟩

/-! ## The fast path (C7) -/

/-- When `init_user_namespace` returns `true`, the process-wide handle is set afterwards. -/
theorem init_user_namespace_true_sets (os : OSAnswers) (st : Proc)
    (h : (init_user_namespace os st).2 = true) :
    (init_user_namespace os st).1.g_user_private_namespace ≠ NULL := by
  by_cases h0 : st.g_user_private_namespace = NULL
  · have hiff := (init_from_empty_iff os st h0).mp h
    obtain ⟨h1, h2, h3, h4, h5, h6⟩ := hiff
    by_cases hc : os.CreatePrivateNamespaceW = NULL
    · have h7 : os.OpenPrivateNamespace ≠ NULL := by
        rcases h6 with h6 | h6
        · exact absurd hc h6
        · exact h6
      rw [init_path_opened os st h0 h1 h2 h3 h4 h5 hc h7]
      exact h7
    · rw [init_path_created os st h0 h1 h2 h3 h4 h5 hc]
      exact hc
  · rw [init_user_namespace_of_set os st h0]
    exact h0

/-- With the handle set, a `user` resolution returns the literal and touches nothing. -/
theorem get_scope_prefix_user_of_set (os : OSAnswers) (st : Proc)
    (h : st.g_user_private_namespace ≠ NULL) :
    get_scope_prefix true os st scope.user = (st, Except.ok "User\\boost.log.user.") := by
  have hi := init_user_namespace_of_set os st h
  rw [get_scope_prefix_user_available os st (by rw [hi]), hi]

/-- With the handle set, any number of successive `user` resolutions return the literal and
leave the state as it is. -/
theorem resolve_user_each_of_set (oss : List OSAnswers) (st : Proc)
    (h : st.g_user_private_namespace ≠ NULL) :
    resolve_user_each oss st =
      (st, oss.map (fun _ => Except.ok "User\\boost.log.user.")) := by
  induction oss with
  | nil => rfl
  | cons os rest ih =>
    simp only [resolve_user_each, get_scope_prefix_user_of_set os st h, ih, List.map_cons]

/-- C7: if the process-wide handle is already set when `init_user_namespace` is called, the
call returns `true` and leaves the whole process state as it is: the handle is unchanged and
no OS call is added to the log. Consequently, after a `user` resolution in which
`init_user_namespace` returned `true`, the handle is set, and every later `user` resolution
of the process, whatever the OS would answer, returns `User\boost.log.user.` and changes
nothing: no call is logged, so no second create or open is made. -/
theorem init_user_namespace_fast_path (os : OSAnswers) (st : Proc) :
    (st.g_user_private_namespace ≠ NULL →
      init_user_namespace os st = (st, true) ∧
      get_scope_prefix true os st scope.user = (st, Except.ok "User\\boost.log.user.")) ∧
    ((init_user_namespace os st).2 = true →
      ( get_scope_prefix true os st scope.user).1.g_user_private_namespace ≠ NULL ∧
      ( get_scope_prefix true os st scope.user).2 = Except.ok "User\\boost.log.user." ∧
      ∀ oss : List OSAnswers,
        resolve_user_each oss ( get_scope_prefix true os st scope.user).1 =
          (( get_scope_prefix true os st scope.user).1,
            oss.map (fun _ => Except.ok "User\\boost.log.user."))) := by
  constructor
  · intro h
    exact ⟨init_user_namespace_of_set os st h, get_scope_prefix_user_of_set os st h⟩
  · intro h
    have hp := get_scope_prefix_user_available os st h
    have hs := init_user_namespace_true_sets os st h
    rw [hp]
    exact ⟨hs, rfl, fun oss => resolve_user_each_of_set oss _ hs⟩

/-- C7 at concrete inputs: with the handle set to 11, a call under answers that would create
another namespace returns `true` with the state untouched; and after the first resolution
of a fresh process has created the namespace, three later resolutions (one of them under
answers with which every OS call would fail) return the same literal and log nothing. -/
theorem init_user_namespace_fast_path_witness :
    init_user_namespace os_created (Proc.mk 11 []) = (Proc.mk 11 [], true) ∧
    resolve_user_each [os_created, os_failing, os_denied]
        ( get_scope_prefix true os_created fresh scope.user).1 =
      (( get_scope_prefix true os_created fresh scope.user).1,
        [Except.ok "User\\boost.log.user.", Except.ok "User\\boost.log.user.",
          Except.ok "User\\boost.log.user."]) :=
  ⟨((init_user_namespace_fast_path os_created (Proc.mk 11 [])).1 (by decide)).1,
    ((init_user_namespace_fast_path os_created fresh).2 rfl).2.2
      [os_created, os_failing, os_denied]⟩

/-! ## Lemmas on threads -/

theorem thread_complete_handle (t : Thread) (os : OSAnswers) (h : HANDLE) (a : Bool)
    (st : Proc) : (t.complete os h a st).1 = st.g_user_private_namespace := by
  simp only [Thread.complete]
  exact user_scope_case_handle os a st

/-- A step of a thread leaves the shared handle as it is, or takes it from empty to set. -/
theorem thread_step_handle (os : OSAnswers) (g : HANDLE) (t : Thread) :
    (t.step os g).1 = g ∨ (g = NULL ∧ (t.step os g).1 ≠ NULL) := by
  unfold Thread.step
  cases hpc : t.pc with
  | idle =>
    simp only
    have hh := init_acquire_handle os (Proc.mk g t.calls)
    rcases hq : init_acquire os (Proc.mk g t.calls) with ⟨st1, pt⟩
    rw [hq] at hh
    cases pt with
    | returned h r =>
      left
      simp only [thread_complete_handle]
      exact hh
    | publishing h b tok =>
      left
      exact hh
  | publishing os0 h b tok =>
    simp only [thread_complete_handle]
    by_cases hg : g = NULL
    · rw [init_publish_win h b tok (Proc.mk g t.calls) hg]
      by_cases hh : h = NULL
      · left
        simp [hh, hg]
      · right
        exact ⟨hg, hh⟩
    · left
      rw [init_publish_lose h b tok (Proc.mk g t.calls) hg]

/-- A step of the process leaves the shared handle as it is, or takes it from empty to set. -/
theorem system_step_handle (s : System) (ev : Nat × OSAnswers) :
    (s.step ev).g_user_private_namespace = s.g_user_private_namespace ∨
    (s.g_user_private_namespace = NULL ∧ (s.step ev).g_user_private_namespace ≠ NULL) := by
  unfold System.step
  cases s.threads[ev.1]? with
  | none => exact Or.inl rfl
  | some t => exact thread_step_handle ev.2 s.g_user_private_namespace t

theorem system_run_handle (evs : List (Nat × OSAnswers)) (s : System)
    (h : s.g_user_private_namespace ≠ NULL) :
    (s.run evs).g_user_private_namespace = s.g_user_private_namespace := by
  induction evs generalizing s with
  | nil => rfl
  | cons ev rest ih =>
    have h1 : (s.step ev).g_user_private_namespace = s.g_user_private_namespace := by
      rcases system_step_handle s ev with h1 | h1
      · exact h1
      · exact absurd h1.1 h
    have h2 := ih (s.step ev) (by rw [h1]; exact h)
    simp only [System.run, List.foldl_cons] at h2 ⊢
    rw [h2, h1]

theorem handle_history_of_set (evs : List (Nat × OSAnswers)) (s : System)
    (h : s.g_user_private_namespace ≠ NULL) : count_changes (s.handle_history evs) = 0 := by
  induction evs generalizing s with
  | nil => rfl
  | cons ev rest ih =>
    have h1 : (s.step ev).g_user_private_namespace = s.g_user_private_namespace := by
      rcases system_step_handle s ev with h1 | h1
      · exact h1
      · exact absurd h1.1 h
    have h2 := ih (s.step ev) (by rw [h1]; exact h)
    have hstep : s.handle_history (ev :: rest) =
        s.g_user_private_namespace :: (s.step ev).handle_history rest := rfl
    have hhead : ∃ tl, (s.step ev).handle_history rest =
        (s.step ev).g_user_private_namespace :: tl := by
      cases rest with
      | nil => exact ⟨[], rfl⟩
      | cons ev2 rest2 => exact ⟨_, rfl⟩
    obtain ⟨tl, htl⟩ := hhead
    rw [hstep, htl]
    simp only [count_changes]
    rw [← htl, h2, h1]
    simp

theorem handle_history_changes (evs : List (Nat × OSAnswers)) (s : System) :
    count_changes (s.handle_history evs) ≤ 1 := by
  induction evs generalizing s with
  | nil => simp [System.handle_history, count_changes]
  | cons ev rest ih =>
    have hstep : s.handle_history (ev :: rest) =
        s.g_user_private_namespace :: (s.step ev).handle_history rest := rfl
    have hhead : ∃ tl, (s.step ev).handle_history rest =
        (s.step ev).g_user_private_namespace :: tl := by
      cases rest with
      | nil => exact ⟨[], rfl⟩
      | cons ev2 rest2 => exact ⟨_, rfl⟩
    obtain ⟨tl, htl⟩ := hhead
    rw [hstep, htl]
    simp only [count_changes]
    rw [← htl]
    rcases system_step_handle s ev with h1 | h1
    · simp only [h1, if_true, Nat.zero_add]
      exact ih (s.step ev)
    · rw [handle_history_of_set rest (s.step ev) h1.2]
      split_ifs <;> simp

/-- A call of `init_user_namespace` without interference leaves the handle as it is, or takes
it from empty to set. -/
theorem init_user_namespace_handle (os : OSAnswers) (st : Proc) :
    (init_user_namespace os st).1.g_user_private_namespace = st.g_user_private_namespace ∨
    (st.g_user_private_namespace = NULL ∧
      (init_user_namespace os st).1.g_user_private_namespace ≠ NULL) := by
  have hh := init_acquire_handle os st
  unfold init_user_namespace
  rcases hq : init_acquire os st with ⟨st1, pt⟩
  rw [hq] at hh
  cases pt with
  | returned h r => exact Or.inl hh
  | publishing h b tok =>
    have hp := init_acquire_publishing os st h b tok (by rw [hq])
    right
    refine ⟨hp.2, ?_⟩
    simp only at hh ⊢
    rw [init_publish_win h b tok st1 (by rw [hh]; exact hp.2)]
    exact hp.1

/-! ## The handle is written once (C8) -/

/-- C8: the process-wide handle is written only by the transition from empty to a non-empty
handle. In every state of a process with any number of threads, every step of a thread
(fast path, failure, acquisition, successful publish, lost compare-exchange) leaves the
handle as it is or takes it from empty to non-empty; once it is non-empty no execution
changes it; along every execution from every state it changes at most once. Inside
`init_user_namespace`, the part before the compare-exchange never writes it (and reaches
the compare-exchange only with a non-null handle, read from an empty slot), a lost
compare-exchange leaves it as found, and a won one stores the obtained handle; the
function run without interference has the same property. -/
theorem handle_written_at_most_once :
    (∀ (s : System) (ev : Nat × OSAnswers),
      (s.step ev).g_user_private_namespace = s.g_user_private_namespace ∨
      (s.g_user_private_namespace = NULL ∧ (s.step ev).g_user_private_namespace ≠ NULL)) ∧
    (∀ (s : System) (evs : List (Nat × OSAnswers)), s.g_user_private_namespace ≠ NULL →
      (s.run evs).g_user_private_namespace = s.g_user_private_namespace) ∧
    (∀ (s : System) (evs : List (Nat × OSAnswers)),
      count_changes (s.handle_history evs) ≤ 1) ∧
    (∀ (os : OSAnswers) (st : Proc),
      (init_acquire os st).1.g_user_private_namespace = st.g_user_private_namespace) ∧
    (∀ (os : OSAnswers) (st : Proc) (h boundary token : HANDLE),
      (init_acquire os st).2 = InitPoint.publishing h boundary token →
      h ≠ NULL ∧ st.g_user_private_namespace = NULL) ∧
    (∀ (h boundary token : HANDLE) (st : Proc), st.g_user_private_namespace ≠ NULL →
      (init_publish h boundary token st).1.g_user_private_namespace =
        st.g_user_private_namespace) ∧
    (∀ (h boundary token : HANDLE) (st : Proc), st.g_user_private_namespace = NULL →
      (init_publish h boundary token st).1.g_user_private_namespace = h) ∧
    (∀ (os : OSAnswers) (st : Proc),
      (init_user_namespace os st).1.g_user_private_namespace = st.g_user_private_namespace ∨
      (st.g_user_private_namespace = NULL ∧
        (init_user_namespace os st).1.g_user_private_namespace ≠ NULL)) := by
  refine ⟨system_step_handle, fun s evs h => system_run_handle evs s h,
    fun s evs => handle_history_changes evs s, init_acquire_handle,
    init_acquire_publishing, ?_, ?_, init_user_namespace_handle⟩
  · intro h b tok st hg
    rw [init_publish_lose h b tok st hg]
  · intro h b tok st hg
    rw [init_publish_win h b tok st hg]

/-- The two models agree: an idle thread left alone for one resolution does what the
function `get_scope_prefix` does for the `user` scope (Vista configuration) on the state
made of the shared handle and the thread's log, and records the flag `init_user_namespace`
returns and the result of `get_scope_prefix`. -/
theorem thread_alone_is_get_scope_prefix (os : OSAnswers) (g : HANDLE) (t : Thread)
    (hpc : t.pc = Pc.idle) :
    (t.run_alone os g).1 =
      ( get_scope_prefix true os (Proc.mk g t.calls) scope.user).1.g_user_private_namespace ∧
    (t.run_alone os g).2.calls =
      ( get_scope_prefix true os (Proc.mk g t.calls) scope.user).1.calls ∧
    (t.run_alone os g).2.pc = Pc.idle ∧
    ∃ h, (t.run_alone os g).2.outcomes = t.outcomes ++
      [Outcome.mk h (init_user_namespace os (Proc.mk g t.calls)).2
        ( get_scope_prefix true os (Proc.mk g t.calls) scope.user).2] := by
  rw [get_scope_prefix_user_vista]
  unfold Thread.run_alone Thread.step init_user_namespace
  rw [hpc]
  simp only
  rcases hq : init_acquire os (Proc.mk g t.calls) with ⟨st1, pt⟩
  cases pt with
  | returned h r =>
    simp only [Thread.complete]
    exact ⟨trivial, trivial, trivial, h, rfl⟩
  | publishing h b tok =>
    simp only [Thread.complete]
    have hh := init_acquire_handle os (Proc.mk g t.calls)
    rw [hq] at hh
    simp only at hh
    have hst : Proc.mk st1.g_user_private_namespace st1.calls = st1 := rfl
    rw [hst]
    exact ⟨trivial, trivial, trivial, (init_publish h b tok st1).2.1, rfl⟩

/-- C8 at a concrete input: three threads enter with an empty slot and publish in the order
2, 0, 1; then thread 0 resolves once more. The handle takes the values 0, 0, 0, 0, 13, 13,
13, 13: one change, and none once it is set. -/
theorem handle_written_at_most_once_witness :
    three_threads.handle_history
        [(1, os_created), (0, os_opened), (2, os_created_13), (2, os_failing),
          (0, os_failing), (1, os_failing), (0, os_created)] =
      [0, 0, 0, 0, 13, 13, 13, 13] ∧
    count_changes (three_threads.handle_history
        [(1, os_created), (0, os_opened), (2, os_created_13), (2, os_failing),
          (0, os_failing), (1, os_failing), (0, os_created)]) ≤ 1 ∧
    ((three_threads.run
        [(1, os_created), (0, os_opened), (2, os_created_13), (2, os_failing)]).run
        [(0, os_failing), (1, os_failing), (0, os_created)]).g_user_private_namespace =
      (three_threads.run
        [(1, os_created), (0, os_opened), (2, os_created_13),
          (2, os_failing)]).g_user_private_namespace :=
  ⟨rfl,
    handle_written_at_most_once.2.2.1 three_threads _,
    handle_written_at_most_once.2.1 _ _ (by decide)⟩

/-! ## Racing threads -/

/-- An idle thread whose acquisition obtains a handle: it moves to the compare-exchange. -/
theorem thread_step_enter (os : OSAnswers) (t : Thread) (h b tok : HANDLE)
    (hpc : t.pc = Pc.idle)
    (hacq : (init_acquire os fresh).2 = InitPoint.publishing h b tok) :
    t.step os NULL =
      (NULL, Thread.mk (Pc.publishing os h b tok)
        (t.calls ++ (init_acquire os fresh).1.calls) t.outcomes) := by
  have hf := init_acquire_frame os (Proc.mk NULL t.calls)
  have hh := init_acquire_handle os (Proc.mk NULL t.calls)
  simp only at hf hh
  have hf1 : (init_acquire os (Proc.mk NULL t.calls)).2 = InitPoint.publishing h b tok := by
    rw [hf.1]
    exact hacq
  have hf2 : (init_acquire os (Proc.mk NULL t.calls)).1.calls =
      t.calls ++ (init_acquire os fresh).1.calls := hf.2
  unfold Thread.step
  rw [hpc]
  simp only
  rcases hq : init_acquire os (Proc.mk NULL t.calls) with ⟨st1, pt⟩
  rw [hq] at hf1 hf2 hh
  simp only at hf1 hf2 hh
  subst hf1
  simp only [hh, hf2]

/-- A thread at the compare-exchange that finds the slot empty: it publishes its handle. -/
theorem thread_step_win (os os0 : OSAnswers) (t : Thread) (h b tok : HANDLE)
    (hpc : t.pc = Pc.publishing os0 h b tok) (hh : h ≠ NULL) :
    t.step os NULL =
      (h, { pc := Pc.idle,
            calls := t.calls ++ (auto_boundary_descriptor_dtor b ++ auto_handle_dtor tok),
            outcomes := t.outcomes ++
              [Outcome.mk h true (Except.ok "User\\boost.log.user.")] }) := by
  unfold Thread.step
  rw [hpc]
  simp only
  rw [init_publish_win h b tok (Proc.mk NULL t.calls) rfl]
  simp only [Thread.complete, user_scope_case, decide_eq_true hh, if_true]
  rfl

/-- A thread at the compare-exchange that finds the slot set: it closes its handle and
adopts the one it found. -/
theorem thread_step_lose (os os0 : OSAnswers) (t : Thread) (g h b tok : HANDLE)
    (hpc : t.pc = Pc.publishing os0 h b tok) (hg : g ≠ NULL) :
    t.step os g =
      (g, { pc := Pc.idle,
            calls := t.calls ++ [OsCall.ClosePrivateNamespace h] ++
              (auto_boundary_descriptor_dtor b ++ auto_handle_dtor tok),
            outcomes := t.outcomes ++
              [Outcome.mk g true (Except.ok "User\\boost.log.user.")] }) := by
  unfold Thread.step
  rw [hpc]
  simp only
  rw [init_publish_lose h b tok (Proc.mk g t.calls) hg]
  simp only [Thread.complete, user_scope_case, if_true]
  rfl

theorem system_step_some (s : System) (ev : Nat × OSAnswers) (t : Thread)
    (h : s.threads[ev.1]? = some t) :
    s.step ev =
      { g_user_private_namespace := (t.step ev.2 s.g_user_private_namespace).1,
        threads := s.threads.set ev.1 (t.step ev.2 s.g_user_private_namespace).2 } := by
  simp only [System.step, h]

theorem system_step_none (s : System) (ev : Nat × OSAnswers)
    (h : s.threads[ev.1]? = none) : s.step ev = s := by
  simp only [System.step, h]

theorem system_run_cons (s : System) (ev : Nat × OSAnswers) (evs : List (Nat × OSAnswers)) :
    s.run (ev :: evs) = (s.step ev).run evs := rfl

theorem system_run_append (s : System) (evs1 evs2 : List (Nat × OSAnswers)) :
    s.run (evs1 ++ evs2) = (s.run evs1).run evs2 := by
  simp [System.run, List.foldl_append]

/-- Steps of pairwise distinct threads none of which changes the shared handle `g`: the
handle stays `g`, each scheduled thread has made its step, the others are untouched. -/
theorem run_of_quiet_steps (g : HANDLE) (evs : List (Nat × OSAnswers)) (s : System)
    (hg : s.g_user_private_namespace = g) (hnd : (evs.map Prod.fst).Nodup)
    (hq : ∀ ev ∈ evs, ∀ t, s.threads[ev.1]? = some t → (t.step ev.2 g).1 = g) :
    (s.run evs).g_user_private_namespace = g ∧
    (s.run evs).threads.length = s.threads.length ∧
    (∀ ev ∈ evs, ∀ t, s.threads[ev.1]? = some t →
      (s.run evs).threads[ev.1]? = some (t.step ev.2 g).2) ∧
    (∀ i, i ∉ evs.map Prod.fst → (s.run evs).threads[i]? = s.threads[i]?) := by
  induction evs generalizing s with
  | nil => exact ⟨hg, rfl, fun ev h => absurd h (List.not_mem_nil _), fun i _ => rfl⟩
  | cons ev rest ih =>
    have hnd1 : ev.1 ∉ rest.map Prod.fst := (List.nodup_cons.mp hnd).1
    have hnd2 : (rest.map Prod.fst).Nodup := (List.nodup_cons.mp hnd).2
    have hne : ∀ ev2 ∈ rest, ev.1 ≠ ev2.1 := fun ev2 h2 e =>
      hnd1 (e ▸ List.mem_map_of_mem Prod.fst h2)
    rw [system_run_cons]
    cases hth : s.threads[ev.1]? with
    | none =>
      rw [system_step_none s ev hth]
      obtain ⟨i1, i2, i3, i4⟩ := ih s hg hnd2
        (fun ev2 h2 => hq ev2 (List.mem_cons_of_mem _ h2))
      refine ⟨i1, i2, ?_, ?_⟩
      · intro ev2 h2 t ht
        rcases List.mem_cons.mp h2 with e | h2
        · subst e
          rw [hth] at ht
          exact absurd ht (by simp)
        · exact i3 ev2 h2 t ht
      · intro i hi
        exact i4 i (fun hc => hi (by simp only [List.map_cons]; exact List.mem_cons_of_mem _ hc))
    | some t =>
      have hstep := system_step_some s ev t hth
      have hq0 : (t.step ev.2 g).1 = g := hq ev (List.mem_cons_self _ _) t hth
      rw [hg] at hstep
      have hlt : ev.1 < s.threads.length := by
        rcases List.getElem?_eq_some.mp hth with ⟨hlt, _⟩
        exact hlt
      have hother : ∀ i, i ≠ ev.1 → (s.step ev).threads[i]? = s.threads[i]? := by
        intro i hi
        rw [hstep]
        exact List.getElem?_set_ne (fun e => hi e.symm)
      obtain ⟨i1, i2, i3, i4⟩ := ih (s.step ev) (by rw [hstep]; exact hq0) hnd2
        (fun ev2 h2 t2 ht2 => by
          rw [hother ev2.1 (fun e => hne ev2 h2 e.symm)] at ht2
          exact hq ev2 (List.mem_cons_of_mem _ h2) t2 ht2)
      refine ⟨i1, ?_, ?_, ?_⟩
      · rw [i2, hstep]
        simp
      · intro ev2 h2 t2 ht2
        rcases List.mem_cons.mp h2 with e | h2
        · subst e
          rw [hth] at ht2
          have e2 : t = t2 := by simpa using ht2
          subst e2
          rw [i4 ev2.1 hnd1, hstep]
          simp [hlt]
        · have ht3 : (s.step ev).threads[ev2.1]? = some t2 := by
            rw [hother ev2.1 (fun e => hne ev2 h2 e.symm)]
            exact ht2
          exact i3 ev2 h2 t2 ht3
      · intro i hi
        have hi1 : i ≠ ev.1 := fun e => hi (by simp [e])
        have hi2 : i ∉ rest.map Prod.fst := fun hc =>
          hi (by simp only [List.map_cons]; exact List.mem_cons_of_mem _ hc)
        rw [i4 i hi2, hother i hi1]

theorem init_acquire_closes_nothing (os : OSAnswers) (x : HANDLE) :
    OsCall.ClosePrivateNamespace x ∉ (init_acquire os fresh).1.calls := by
  unfold init_acquire
  simp only [Proc.log, auto_handle_dtor, auto_boundary_descriptor_dtor, fresh]
  split_ifs <;> simp

theorem guards_close_no_namespace (b tok x : HANDLE) :
    OsCall.ClosePrivateNamespace x ∉
      auto_boundary_descriptor_dtor b ++ auto_handle_dtor tok := by
  simp only [auto_handle_dtor, auto_boundary_descriptor_dtor]
  split_ifs <;> simp

/-- What a step of a thread adds to its outcomes: nothing, or one outcome which, when its
flag is `true`, carries the shared handle as the step leaves it (non-null) and the literal
of the private namespace. -/
theorem thread_step_outcomes (os : OSAnswers) (g : HANDLE) (t : Thread) :
    (t.step os g).2.outcomes = t.outcomes ∨
    ∃ o, (t.step os g).2.outcomes = t.outcomes ++ [o] ∧
      (o.available = true →
        o.h = (t.step os g).1 ∧ (t.step os g).1 ≠ NULL ∧
        o.result = Except.ok "User\\boost.log.user.") := by
  unfold Thread.step
  cases hpc : t.pc with
  | idle =>
    simp only
    have hh := init_acquire_handle os (Proc.mk g t.calls)
    rcases hq : init_acquire os (Proc.mk g t.calls) with ⟨st1, pt⟩
    rw [hq] at hh
    simp only at hh
    cases pt with
    | returned h r =>
      right
      have hr := init_acquire_returned os (Proc.mk g t.calls) h r (by rw [hq])
      simp only at hr
      refine ⟨_, rfl, ?_⟩
      intro ha
      simp only at ha
      simp only [thread_complete_handle, hh]
      subst ha
      have hg : g ≠ NULL := by simpa using hr.2.symm
      exact ⟨hr.1, hg, rfl⟩
    | publishing h b tok => exact Or.inl rfl
  | publishing os0 h b tok =>
    right
    simp only [thread_complete_handle]
    by_cases hg : g = NULL
    · rw [init_publish_win h b tok (Proc.mk g t.calls) hg]
      refine ⟨_, rfl, ?_⟩
      intro ha
      simp only [decide_eq_true_eq] at ha
      simp only [user_scope_case, decide_eq_true ha, if_true]
      exact ⟨trivial, ha, rfl⟩
    · rw [init_publish_lose h b tok (Proc.mk g t.calls) hg]
      refine ⟨_, rfl, ?_⟩
      intro _
      exact ⟨rfl, hg, rfl⟩

/-- In every execution, from a state in which every outcome recorded with the flag `true`
carries the current (non-null) handle and the literal of the private namespace, the same
holds at the end: whatever the interleaving and however many resolutions each thread
makes, all resolutions that found the namespace available got the same handle, the one the
slot holds, and returned `User\boost.log.user.`. A process whose threads have not completed
any resolution is such a state. -/
theorem successful_outcomes_agree (evs : List (Nat × OSAnswers)) (s : System)
    (hinv : ∀ t ∈ s.threads, ∀ o ∈ t.outcomes, o.available = true →
      o.h = s.g_user_private_namespace ∧ s.g_user_private_namespace ≠ NULL ∧
      o.result = Except.ok "User\\boost.log.user.") :
    ∀ t ∈ (s.run evs).threads, ∀ o ∈ t.outcomes, o.available = true →
      o.h = (s.run evs).g_user_private_namespace ∧
      (s.run evs).g_user_private_namespace ≠ NULL ∧
      o.result = Except.ok "User\\boost.log.user." := by
  induction evs generalizing s with
  | nil => exact hinv
  | cons ev rest ih =>
    rw [system_run_cons]
    apply ih
    cases hth : s.threads[ev.1]? with
    | none =>
      rw [system_step_none s ev hth]
      exact hinv
    | some t0 =>
      have ht0 : t0 ∈ s.threads := List.getElem?_mem hth
      rw [system_step_some s ev t0 hth]
      simp only
      -- an outcome recorded before the step keeps its handle through the step
      have hold : ∀ t ∈ s.threads, ∀ o ∈ t.outcomes, o.available = true →
          o.h = (t0.step ev.2 s.g_user_private_namespace).1 ∧
          (t0.step ev.2 s.g_user_private_namespace).1 ≠ NULL ∧
          o.result = Except.ok "User\\boost.log.user." := by
        intro t ht o ho ha
        obtain ⟨h1, h2, h3⟩ := hinv t ht o ho ha
        have hkeep : (t0.step ev.2 s.g_user_private_namespace).1 =
            s.g_user_private_namespace := by
          rcases thread_step_handle ev.2 s.g_user_private_namespace t0 with h | h
          · exact h
          · exact absurd h.1 h2
        rw [hkeep]
        exact ⟨h1, h2, h3⟩
      intro t ht o ho ha
      rcases List.mem_or_eq_of_mem_set ht with ht | ht
      · exact hold t ht o ho ha
      · subst ht
        rcases thread_step_outcomes ev.2 s.g_user_private_namespace t0 with hk | ⟨o1, hk, hnew⟩
        · rw [hk] at ho
          exact hold t0 ht0 o ho ha
        · rw [hk] at ho
          rcases List.mem_append.mp ho with ho | ho
          · exact hold t0 ht0 o ho ha
          · have e : o = o1 := by simpa using ho
            subst e
            exact hnew ha

/-! ## Racing threads retain one handle (C9) -/

/-- C9: take a process with an empty handle and `N ≥ 1` idle threads. Every thread enters
`get_scope_prefix(user)`, reads the empty slot and obtains a namespace handle from the OS
(`enters`, in any order; for every thread to read an empty slot its load comes before the
first compare-exchange), then every thread makes its compare-exchange and returns
(`publishes`, in any order). Then the thread `w` scheduled first among the publishers is
the winner: the process-wide slot ends with the handle `hw` that `w` obtained; every thread
ends idle with one more outcome, which is `init_user_namespace` returning `true` with its
local handle equal to `hw` and `get_scope_prefix` returning `User\boost.log.user.`; and the
calls a thread made hold `ClosePrivateNamespace x` exactly when the thread is not the
winner and `x` is the handle it obtained. -/
theorem racing_threads_retain_one_handle (threads : List Thread)
    (enters publishes : List (Nat × OSAnswers))
    (hN : threads ≠ [])
    (hidle : ∀ t ∈ threads, t.pc = Pc.idle)
    (henters : (enters.map Prod.fst).Perm (List.range threads.length))
    (hpublishes : (publishes.map Prod.fst).Perm (List.range threads.length))
    (hobtain : ∀ ev ∈ enters, ∃ h b tok,
      (init_acquire ev.2 fresh).2 = InitPoint.publishing h b tok) :
    ∃ (w : Nat) (hw : HANDLE),
      (publishes.map Prod.fst).head? = some w ∧ hw ≠ NULL ∧
      (∃ os b tok, (w, os) ∈ enters ∧
        (init_acquire os fresh).2 = InitPoint.publishing hw b tok) ∧
      ((System.mk NULL threads).run (enters ++ publishes)).g_user_private_namespace = hw ∧
      ((System.mk NULL threads).run (enters ++ publishes)).threads.length =
        threads.length ∧
      ∀ (i : Nat) (os : OSAnswers) (h b tok : HANDLE) (t : Thread),
        (i, os) ∈ enters → (init_acquire os fresh).2 = InitPoint.publishing h b tok →
        threads[i]? = some t →
        ∃ (t' : Thread) (new : List OsCall),
          ((System.mk NULL threads).run (enters ++ publishes)).threads[i]? = some t' ∧
          t'.pc = Pc.idle ∧ t'.calls = t.calls ++ new ∧
          t'.outcomes = t.outcomes ++
            [Outcome.mk hw true (Except.ok "User\\boost.log.user.")] ∧
          ∀ x, OsCall.ClosePrivateNamespace x ∈ new ↔ (i ≠ w ∧ x = h) := by
  -- the schedule
  have hnd_e : (enters.map Prod.fst).Nodup := henters.nodup_iff.mpr (List.nodup_range _)
  have hnd_p : (publishes.map Prod.fst).Nodup := hpublishes.nodup_iff.mpr (List.nodup_range _)
  have hmem_p : ∀ i, i ∈ publishes.map Prod.fst ↔ i < threads.length := fun i => by
    rw [hpublishes.mem_iff, List.mem_range]
  have hmem_e : ∀ i, i ∈ enters.map Prod.fst ↔ i < threads.length := fun i => by
    rw [henters.mem_iff, List.mem_range]
  have hpos : 0 < threads.length := List.length_pos.mpr hN
  -- phase 1: every thread enters
  have hstep1 : ∀ ev ∈ enters, ∀ t, threads[ev.1]? = some t → ∀ h b tok,
      (init_acquire ev.2 fresh).2 = InitPoint.publishing h b tok →
      t.step ev.2 NULL = (NULL, Thread.mk (Pc.publishing ev.2 h b tok)
        (t.calls ++ (init_acquire ev.2 fresh).1.calls) t.outcomes) := by
    intro ev _ t ht h b tok hacq
    exact thread_step_enter ev.2 t h b tok (hidle t (List.getElem?_mem ht)) hacq
  obtain ⟨p1, p2, p3, _⟩ := run_of_quiet_steps NULL enters (System.mk NULL threads) rfl hnd_e
    (fun ev hev t ht => by
      obtain ⟨h, b, tok, hacq⟩ := hobtain ev hev
      rw [hstep1 ev hev t ht h b tok hacq])
  -- the winner
  cases hpub : publishes with
  | nil =>
    rw [hpub] at hmem_p
    exact absurd ((hmem_p 0).mpr hpos) (by simp)
  | cons evw rest =>
    rw [hpub] at hnd_p hmem_p
    simp only [List.map_cons] at hnd_p hmem_p
    have hw_lt : evw.1 < threads.length := (hmem_p evw.1).mp (List.mem_cons_self _ _)
    have hw_notin : evw.1 ∉ rest.map Prod.fst := (List.nodup_cons.mp hnd_p).1
    have hnd_r : (rest.map Prod.fst).Nodup := (List.nodup_cons.mp hnd_p).2
    obtain ⟨eve, heve, hevw⟩ := List.mem_map.mp ((hmem_e evw.1).mpr hw_lt)
    obtain ⟨hw, bw, tokw, hacqw⟩ := hobtain eve heve
    have hw_ne : hw ≠ NULL := (init_acquire_publishing eve.2 fresh hw bw tokw hacqw).1
    obtain ⟨tw, htw⟩ : ∃ tw, threads[evw.1]? = some tw :=
      ⟨threads[evw.1], List.getElem?_eq_getElem hw_lt⟩
    have htw_e : threads[eve.1]? = some tw := by rw [hevw]; exact htw
    have hs1w := p3 eve heve tw htw_e
    rw [hstep1 eve heve tw htw_e hw bw tokw hacqw, hevw] at hs1w
    simp only at hs1w
    -- phase 2: the first publisher wins
    have hs2 := system_step_some ((System.mk NULL threads).run enters) evw _ hs1w
    rw [p1, thread_step_win evw.2 eve.2 _ hw bw tokw rfl hw_ne] at hs2
    simp only at hs2
    have hother : ∀ i, i ≠ evw.1 →
        (((System.mk NULL threads).run enters).step evw).threads[i]? =
          ((System.mk NULL threads).run enters).threads[i]? := by
      intro i hi
      rw [hs2]
      exact List.getElem?_set_ne (fun e => hi e.symm)
    have hlen1 : evw.1 < ((System.mk NULL threads).run enters).threads.length := by
      rw [p2]; exact hw_lt
    -- phase 3: the other publishers lose
    obtain ⟨q1, q2, q3, q4⟩ := run_of_quiet_steps hw rest
      (((System.mk NULL threads).run enters).step evw) (by rw [hs2]) hnd_r
      (fun ev _ t _ => by
        rcases thread_step_handle ev.2 hw t with h | h
        · exact h
        · exact absurd h.1 hw_ne)
    have hrun : (System.mk NULL threads).run (enters ++ evw :: rest) =
        (((System.mk NULL threads).run enters).step evw).run rest := by
      rw [system_run_append, system_run_cons]
    rw [hrun]
    refine ⟨evw.1, hw, rfl, hw_ne, ⟨eve.2, bw, tokw, ?_, hacqw⟩, q1, ?_, ?_⟩
    · rw [← hevw]; exact heve
    · rw [q2, hs2]
      simp only [List.length_set]
      exact p2
    · intro i os h b tok t hi hacq hti
      have hs1 := p3 (i, os) hi t hti
      rw [hstep1 (i, os) hi t hti h b tok hacq] at hs1
      simp only at hs1
      by_cases hiw : i = evw.1
      · -- the winner
        subst hiw
        have htt : t = tw := by
          rw [htw] at hti
          exact (Option.some.inj hti).symm
        subst htt
        rw [hs1w] at hs1
        have e := Option.some.inj hs1
        simp only [Thread.mk.injEq, Pc.publishing.injEq] at e
        obtain ⟨⟨e1, e2, _, _⟩, _, _⟩ := e
        subst e1
        subst e2
        refine ⟨Thread.mk Pc.idle
            ((t.calls ++ (init_acquire eve.2 fresh).1.calls) ++
              (auto_boundary_descriptor_dtor bw ++ auto_handle_dtor tokw))
            (t.outcomes ++ [Outcome.mk hw true (Except.ok "User\\boost.log.user.")]),
          (init_acquire eve.2 fresh).1.calls ++
            (auto_boundary_descriptor_dtor bw ++ auto_handle_dtor tokw), ?_, rfl, ?_, rfl, ?_⟩
        · rw [q4 evw.1 hw_notin, hs2]
          simp only [List.getElem?_set_self hlen1]
        · simp only [List.append_assoc]
        · intro x
          constructor
          · intro hx
            rcases List.mem_append.mp hx with hx | hx
            · exact absurd hx (init_acquire_closes_nothing eve.2 x)
            · exact absurd hx (guards_close_no_namespace bw tokw x)
          · intro hx
            exact absurd rfl hx.1
      · -- a loser
        have hi_lt : i < threads.length := by
          rcases List.getElem?_eq_some.mp hti with ⟨hlt, _⟩
          exact hlt
        have hi_pub : i ∈ rest.map Prod.fst := by
          rcases List.mem_cons.mp ((hmem_p i).mpr hi_lt) with e | hmem
          · exact absurd e hiw
          · exact hmem
        obtain ⟨ev3, hev3, hev3i⟩ := List.mem_map.mp hi_pub
        have hs2i : (((System.mk NULL threads).run enters).step evw).threads[ev3.1]? =
            some (Thread.mk (Pc.publishing os h b tok)
              (t.calls ++ (init_acquire os fresh).1.calls) t.outcomes) := by
          rw [hev3i, hother i hiw]
          exact hs1
        have hfin := q3 ev3 hev3 _ hs2i
        rw [thread_step_lose ev3.2 os _ hw h b tok rfl hw_ne, hev3i] at hfin
        simp only at hfin
        refine ⟨_, (init_acquire os fresh).1.calls ++ ([OsCall.ClosePrivateNamespace h] ++
            (auto_boundary_descriptor_dtor b ++ auto_handle_dtor tok)), hfin, rfl, ?_, rfl, ?_⟩
        · simp only [List.append_assoc]
        · intro x
          constructor
          · intro hx
            rcases List.mem_append.mp hx with hx | hx
            · exact absurd hx (init_acquire_closes_nothing os x)
            · rcases List.mem_append.mp hx with hx | hx
              · simp only [List.mem_singleton, OsCall.ClosePrivateNamespace.injEq] at hx
                exact ⟨hiw, hx⟩
              · exact absurd hx (guards_close_no_namespace b tok x)
          · intro hx
            rw [hx.2]
            simp

/-- C9 at a concrete input: three threads enter in the order 1, 0, 2 and obtain the handles
12 (thread 0, by opening), 11 (thread 1) and 13 (thread 2); they publish in the order 2, 0,
1. The slot ends with 13, and threads 0 and 1 close the handles 12 and 11. -/
theorem racing_threads_retain_one_handle_witness :
    (∃ (w : Nat) (hw : HANDLE),
      ([(2, os_failing), (0, os_failing), (1, os_failing)].map Prod.fst).head? = some w ∧
      hw ≠ NULL ∧
      (∃ os b tok, (w, os) ∈ [(1, os_created), (0, os_opened), (2, os_created_13)] ∧
        (init_acquire os fresh).2 = InitPoint.publishing hw b tok) ∧
      ((System.mk NULL [idle_thread, idle_thread, idle_thread]).run
        ([(1, os_created), (0, os_opened), (2, os_created_13)] ++
          [(2, os_failing), (0, os_failing), (1, os_failing)])).g_user_private_namespace
        = hw ∧
      ((System.mk NULL [idle_thread, idle_thread, idle_thread]).run
        ([(1, os_created), (0, os_opened), (2, os_created_13)] ++
          [(2, os_failing), (0, os_failing), (1, os_failing)])).threads.length =
        [idle_thread, idle_thread, idle_thread].length ∧
      ∀ (i : Nat) (os : OSAnswers) (h b tok : HANDLE) (t : Thread),
        (i, os) ∈ [(1, os_created), (0, os_opened), (2, os_created_13)] →
        (init_acquire os fresh).2 = InitPoint.publishing h b tok →
        [idle_thread, idle_thread, idle_thread][i]? = some t →
        ∃ (t' : Thread) (new : List OsCall),
          ((System.mk NULL [idle_thread, idle_thread, idle_thread]).run
            ([(1, os_created), (0, os_opened), (2, os_created_13)] ++
              [(2, os_failing), (0, os_failing), (1, os_failing)])).threads[i]? = some t' ∧
          t'.pc = Pc.idle ∧ t'.calls = t.calls ++ new ∧
          t'.outcomes = t.outcomes ++
            [Outcome.mk hw true (Except.ok "User\\boost.log.user.")] ∧
          ∀ x, OsCall.ClosePrivateNamespace x ∈ new ↔ (i ≠ w ∧ x = h)) ∧
    (three_threads.run
      ([(1, os_created), (0, os_opened), (2, os_created_13)] ++
        [(2, os_failing), (0, os_failing), (1, os_failing)])).g_user_private_namespace = 13 ∧
    (three_threads.run
      ([(1, os_created), (0, os_opened), (2, os_created_13)] ++
        [(2, os_failing), (0, os_failing), (1, os_failing)])).threads.map Thread.calls =
      [[OsCall.GetCurrentProcess, OsCall.OpenProcessToken, OsCall.GetTokenInformation 6,
          OsCall.CreateBoundaryDescriptorW, OsCall.AddSIDToBoundaryDescriptor 8 9,
          OsCall.CreatePrivateNamespaceW 8, OsCall.OpenPrivateNamespace 8,
          OsCall.ClosePrivateNamespace 12, OsCall.DeleteBoundaryDescriptor 8,
          OsCall.CloseHandle 6],
        [OsCall.GetCurrentProcess, OsCall.OpenProcessToken, OsCall.GetTokenInformation 5,
          OsCall.CreateBoundaryDescriptorW, OsCall.AddSIDToBoundaryDescriptor 7 9,
          OsCall.CreatePrivateNamespaceW 7,
          OsCall.ClosePrivateNamespace 11, OsCall.DeleteBoundaryDescriptor 7,
          OsCall.CloseHandle 5],
        [OsCall.GetCurrentProcess, OsCall.OpenProcessToken, OsCall.GetTokenInformation 4,
          OsCall.CreateBoundaryDescriptorW, OsCall.AddSIDToBoundaryDescriptor 10 9,
          OsCall.CreatePrivateNamespaceW 10, OsCall.DeleteBoundaryDescriptor 10,
          OsCall.CloseHandle 4]] :=
  ⟨racing_threads_retain_one_handle [idle_thread, idle_thread, idle_thread]
      [(1, os_created), (0, os_opened), (2, os_created_13)]
      [(2, os_failing), (0, os_failing), (1, os_failing)]
      (List.cons_ne_nil _ _)
      (fun t ht => by
        simp only [List.mem_cons, List.mem_singleton, List.not_mem_nil, or_false, or_self] at ht
        rw [ht]
        rfl)
      (by decide) (by decide)
      (fun ev hev => by
        simp only [List.mem_cons, List.mem_singleton, List.not_mem_nil, or_false] at hev
        rcases hev with e | e | e
        · exact ⟨11, 7, 5, by rw [e]; rfl⟩
        · exact ⟨12, 8, 6, by rw [e]; rfl⟩
        · exact ⟨13, 10, 4, by rw [e]; rfl⟩),
    rfl, rfl⟩

/-! ## Collisions of fallback names (C10) -/

/-- C10: on the fallback path of the `user` scope the name does not identify the pair of
account and suffix. With the private namespace unavailable (with or without the Vista
configuration), the distinct accounts `DOM\alice` and `DOM.alice` get the same string
from `get_scope_prefix`, `Local\boost.log.user.DOM.alice.`; and the account `a` with the
suffix `b.c` and the account `a.b` with the suffix `c` get the same object name,
`Local\boost.log.user.a.b.c`. -/
theorem fallback_names_collide :
    "DOM\\alice".data ≠ "DOM.alice".data ∧
    (init_user_namespace (os_account "DOM\\alice".data) fresh).2 = false ∧
    (init_user_namespace (os_account "DOM.alice".data) fresh).2 = false ∧
    ( get_scope_prefix true (os_account "DOM\\alice".data) fresh scope.user).2 =
      Except.ok "Local\\boost.log.user.DOM.alice." ∧
    ( get_scope_prefix true (os_account "DOM.alice".data) fresh scope.user).2 =
      Except.ok "Local\\boost.log.user.DOM.alice." ∧
    ( get_scope_prefix false (os_account "DOM\\alice".data) fresh scope.user).2 =
      ( get_scope_prefix false (os_account "DOM.alice".data) fresh scope.user).2 ∧
    "a".data ≠ "a.b".data ∧ ("a".data, "b.c") ≠ ("a.b".data, "c") ∧
    (init_user_namespace (os_account "a".data) fresh).2 = false ∧
    (init_user_namespace (os_account "a.b".data) fresh).2 = false ∧
    (object_name.of_string true (os_account "a".data) fresh scope.user "b.c").2 =
      Except.ok (object_name.mk "Local\\boost.log.user.a.b.c") ∧
    (object_name.of_string true (os_account "a.b".data) fresh scope.user "c").2 =
      Except.ok (object_name.mk "Local\\boost.log.user.a.b.c") ∧
    (object_name.of_c_str false (os_account "a".data) fresh scope.user
        ("b.c".data ++ ['\x00'])).2 =
      (object_name.of_c_str false (os_account "a.b".data) fresh scope.user
        ("c".data ++ ['\x00'])).2 :=
  ⟨by decide, rfl, rfl, rfl, rfl, rfl, by decide, by decide, rfl, rfl, rfl, rfl, rfl⟩

end BoostLog
